import Mathlib

/-
Verification development for the Photobook build pipeline
(01_rotate.py planning pass and 02_pdf.py build pass).

Python strings are modelled as `List Char` (`Str` below); Python's
string methods used by the code (`strip`, `lower`, `startswith`,
`endswith`, `replace`, `split`, membership, `int(...)`) are given
faithful character-level definitions.  File contents are modelled at
line granularity (the planning pass joins its lines with a newline and
the build pass iterates lines of the file, so a `List Str` of
newline-free lines is an exact model).
-/

deriving instance DecidableEq for Except

namespace Photobook

abbrev Str := List Char

/-- Python `s.lower()` (ASCII range, which is all the code relies on). -/
def pyLower (s : Str) : Str := s.map Char.toLower

/-- Python `s.strip()`: remove leading and trailing whitespace. -/
def pyStrip (s : Str) : Str :=
  ((s.dropWhile Char.isWhitespace).reverse.dropWhile Char.isWhitespace).reverse

/-- Python `needle in hay` for strings: substring containment. -/
def strContains (hay needle : Str) : Bool :=
  hay.tails.any (fun t => needle.isPrefixOf t)

/-- Python `s.startswith(p)`. -/
def pyStartsWith (s p : Str) : Bool := p.isPrefixOf s

/-- Python `s.endswith(p)`. -/
def pyEndsWith (s p : Str) : Bool := p.isSuffixOf s

/-- Python `s.replace("\\", "/")`, used to normalize path separators.
Both pattern and replacement are single characters, so this is a map. -/
def normalizeSlashes (s : Str) : Str :=
  s.map (fun c => if c = '\\' then '/' else c)

/-- Python `s.split(sep, 1)` for a single-character separator: split at
the first occurrence, `none` when the separator does not occur. -/
def splitFirst (sep : Char) (s : Str) : Option (Str × Str) :=
  match s with
  | [] => none
  | c :: rest =>
    if c = sep then some ([], rest)
    else (splitFirst sep rest).map (fun p => (c :: p.1, p.2))

/-- `os.path.join` as used by the code (POSIX separator). -/
def joinPath (folder name : Str) : Str := folder ++ '/' :: name

/-- `os.path.basename`: the part after the last `/`
(`p[p.rfind(sep) + 1:]` in posixpath). -/
def pyBasename (s : Str) : Str :=
  (s.reverse.takeWhile (fun c => c ≠ '/')).reverse

/-- `os.path.splitext(name)[0]`: drop the extension after the last dot,
except that a dot before the last separator, or a basename consisting
only of leading dots, yields no extension (posixpath semantics). -/
def pyStem (s : Str) : Str :=
  match splitFirst '.' s.reverse with
  | none => s
  | some p =>
    if '/' ∈ p.1 then s
    else if (pyBasename p.2.reverse).any (fun c => c ≠ '.') then p.2.reverse
    else s

/-- Decimal digit run to a natural number (helper for `int(...)`). -/
def digitsToNat (cs : Str) : Option Nat :=
  if cs ≠ [] ∧ cs.all Char.isDigit then
    some (cs.foldl (fun acc c => 10 * acc + (c.toNat - '0'.toNat)) 0)
  else none

/-- Python `int(s)` on an already-stripped string: optional sign then a
nonempty digit run, `none` models a raised `ValueError`. -/
def parseInt (s : Str) : Option Int :=
  match s with
  | '-' :: rest => (digitsToNat rest).map (fun n => -(n : Int))
  | '+' :: rest => (digitsToNat rest).map (fun n => (n : Int))
  | _ => (digitsToNat s).map (fun n => (n : Int))

/-- Python `str(n)` for a nonnegative integer (rotation degrees). -/
def intToChars (n : Int) : Str :=
  if n < 0 then '-' :: Nat.toDigits 10 n.natAbs else Nat.toDigits 10 n.natAbs

/-
Rotation plan decoding, from src/02_pdf.py `parse_rotation_plan`.
The Python dict is modelled as an association list consed newest-first,
so `planLookup` (first match) has exactly the dict's lookup semantics
(later writes win).
-/

/-- The two ways `parse_rotation_plan` raises: `int(deg_part)` failing,
and an explicit `ValueError` for a degree outside {0, 90, 180, 270}. -/
inductive PlanError
  | intParse (line : Str)
  | invalidDegree (deg : Int) (line : Str)
deriving DecidableEq

abbrev PlanMap := List (Str × Int)

/-- Dict write `mapping[k] = v`: newest entry shadows older ones. -/
def planInsert (m : PlanMap) (k : Str) (v : Int) : PlanMap := (k, v) :: m

/-- Dict read `mapping.get(k)`. -/
def planLookup (m : PlanMap) (k : Str) : Option Int :=
  (m.find? (fun e => e.1 = k)).map (fun e => e.2)

/-- The loop body of `parse_rotation_plan` over the file's lines,
threading the dict being built. -/
def parsePlanAux : List Str → PlanMap → Except PlanError PlanMap
  | [], m => .ok m
  | line :: rest, m =>
    let s := pyStrip line
    if s = [] then parsePlanAux rest m
    else if pyStartsWith s ['#'] then parsePlanAux rest m
    else if ¬ s.contains '|' then parsePlanAux rest m
    else
      match splitFirst '|' s with
      | none => parsePlanAux rest m
      | some pd =>
        let path := pyStrip pd.1
        let degS := pyStrip pd.2
        match parseInt degS with
        | none => .error (.intParse line)
        | some deg =>
          if deg = 0 ∨ deg = 90 ∨ deg = 180 ∨ deg = 270 then
            parsePlanAux rest (planInsert m (normalizeSlashes path) deg)
          else .error (.invalidDegree deg line)

/-- src/02_pdf.py `parse_rotation_plan`, over the file's lines. -/
def parse_rotation_plan (lines : List Str) : Except PlanError PlanMap :=
  parsePlanAux lines []

example : parse_rotation_plan ["photos\\a.jpg | 270".data] =
    .ok [("photos/a.jpg".data, 270)] := by decide

example : parse_rotation_plan ["photos\\a.jpg | 45".data] =
    .error (.invalidDegree 45 "photos\\a.jpg | 45".data) := by decide

example : parse_rotation_plan ["# comment".data, "".data, "a.jpg 90".data] =
    .ok [] := by decide

/-
Rotation plan encoding, from src/01_rotate.py.

Images are modelled by the pixel dimensions `Image.open` followed by
`ImageOps.exif_transpose` yields, as a partial map from path to
`(width, height)`; `none` models `Image.open` raising (unreadable
file), which `suggested_rotation_degrees` swallows.
-/

abbrev ImageStore := Str → Option (Nat × Nat)

/-- src/01_rotate.py `suggested_rotation_degrees`: after orientation
correction, portrait (h ≥ w) suggests 0 and landscape suggests 270;
any exception yields 0. -/
def suggested_rotation_degrees (imgs : ImageStore) (image_path : Str) : Int :=
  match imgs image_path with
  | none => 0
  | some wh => if wh.2 ≥ wh.1 then 0 else 270

/-- The fixed header lines the planning pass writes first. -/
def planHeader : List Str :=
  ["# rotation plan v1".data,
   "# format: relative_path | rotation_degrees".data,
   "# allowed degrees: 0, 90, 180, 270".data,
   "# edit the degrees manually, then run 02_build_photobook_from_plan.py".data,
   "".data]

/-- The planning pass's main loop over `(heading, abs_path)` items: a
`# Chapter:` comment at each heading transition, then one
`<path-with-forward-slashes> | <degrees>` line per photo.
`cur` is the running `current_heading` (initially `None`). -/
def encodeItems (imgs : ImageStore) :
    List (Str × Str) → Option Str → List Str
  | [], _ => []
  | (heading, abs_path) :: rest, cur =>
    let line := normalizeSlashes abs_path ++ " | ".data ++
      intToChars (suggested_rotation_degrees imgs abs_path)
    if some heading ≠ cur then
      ("# Chapter: ".data ++ heading) :: line :: encodeItems imgs rest (some heading)
    else
      line :: encodeItems imgs rest cur

/-- The complete rotation plan document the planning pass writes
(src/01_rotate.py `main`), as a list of lines. -/
def rotationPlanLines (imgs : ImageStore) (items : List (Str × Str)) : List Str :=
  planHeader ++ encodeItems imgs items none

example :
    parse_rotation_plan (rotationPlanLines
      (fun p => if p = "d/a.jpg".data then some (30, 20) else some (20, 30))
      [("Alps".data, "d/a.jpg".data), ("Alps".data, "d/b.jpg".data)]) =
    .ok [("d/b.jpg".data, 0), ("d/a.jpg".data, 270)] := by decide

/-- Well-formedness of a normalized photo path, as the round-trip needs
it: nonempty, no leading/trailing whitespace, not starting with the
comment marker, and free of separator and newline characters. Every
ordinary relative file path satisfies this. -/
def wfPath : Str → Bool
  | [] => false
  | c :: rest =>
    !c.isWhitespace && c ≠ '#' &&
    (match (c :: rest).getLast? with
     | none => true
     | some d => !d.isWhitespace) &&
    !(c :: rest).contains '|' &&
    !(c :: rest).contains (Char.ofNat 10) && !(c :: rest).contains (Char.ofNat 13)

theorem dropWhile_eq_self_of_head (p : Char → Bool) (l : Str)
    (h : ∀ c, l.head? = some c → p c = false) : l.dropWhile p = l := by
  cases l with
  | nil => rfl
  | cons a t => simp [List.dropWhile_cons, h a rfl]

theorem pyStrip_eq_self (l : Str)
    (h1 : ∀ c, l.head? = some c → c.isWhitespace = false)
    (h2 : ∀ c, l.getLast? = some c → c.isWhitespace = false) :
    pyStrip l = l := by
  unfold pyStrip
  rw [dropWhile_eq_self_of_head _ _ h1]
  rw [dropWhile_eq_self_of_head _ _
    (fun c hc => h2 c ((List.head?_reverse l) ▸ hc))]
  exact l.reverse_reverse

theorem pyStrip_cons_head (c : Char) (t : Str) (hc : c.isWhitespace = false) :
    pyStrip (c :: t) = c :: (t.reverse.dropWhile Char.isWhitespace).reverse := by
  unfold pyStrip
  rw [dropWhile_eq_self_of_head Char.isWhitespace (c :: t)
    (by intro d hd; simp only [List.head?_cons, Option.some.injEq] at hd; rw [← hd]; exact hc)]
  rw [List.reverse_cons, List.dropWhile_append]
  split
  · next hemp =>
    rw [List.isEmpty_iff] at hemp
    rw [hemp]
    simp [List.dropWhile_cons, hc]
  · rw [List.reverse_append]
    rfl

theorem splitFirst_append (sep : Char) (xs ys : Str) (h : sep ∉ xs) :
    splitFirst sep (xs ++ sep :: ys) = some (xs, ys) := by
  induction xs with
  | nil => simp [splitFirst]
  | cons a t ih =>
    simp only [List.cons_append, splitFirst, List.append_eq]
    have ha : a ≠ sep := fun e => h (e ▸ List.mem_cons_self a t)
    rw [if_neg ha, ih (fun m => h (List.mem_cons_of_mem a m))]
    rfl

theorem pyStrip_append_space (l : Str) : pyStrip (l ++ [' ']) = pyStrip l := by
  unfold pyStrip
  rw [List.dropWhile_append]
  split
  · next h =>
    rw [List.isEmpty_iff] at h
    rw [h]
    simp
  · rw [List.reverse_append]
    simp only [List.reverse_cons, List.reverse_nil, List.nil_append,
      List.singleton_append, List.dropWhile_cons]
    rw [if_pos (by decide)]

theorem normalizeSlashes_idem (s : Str) :
    normalizeSlashes (normalizeSlashes s) = normalizeSlashes s := by
  unfold normalizeSlashes
  rw [List.map_map]
  apply List.map_congr_left
  intro c _
  by_cases h : c = '\\' <;> simp [h]

/-- A line that the decoder skips (blank, comment, or separator-free)
leaves the parse state untouched. -/
theorem parsePlanAux_skip (l : Str) (rest : List Str) (m : PlanMap)
    (h : pyStrip l = [] ∨ pyStartsWith (pyStrip l) ['#'] = true ∨
      (pyStrip l).contains '|' = false) :
    parsePlanAux (l :: rest) m = parsePlanAux rest m := by
  simp only [parsePlanAux]
  rcases h with h | h | h
  · simp [h]
  · simp [h]
  · have h' : ¬ ('|' ∈ pyStrip l) := by simpa using h
    simp [h']

theorem parsePlanAux_header (rest : List Str) (m : PlanMap) :
    parsePlanAux (planHeader ++ rest) m = parsePlanAux rest m := by
  simp only [planHeader, List.cons_append, List.nil_append]
  rw [parsePlanAux_skip _ _ _ (by decide), parsePlanAux_skip _ _ _ (by decide),
    parsePlanAux_skip _ _ _ (by decide), parsePlanAux_skip _ _ _ (by decide),
    parsePlanAux_skip _ _ _ (by decide)]

theorem chapterLine_skip (heading : Str) (rest : List Str) (m : PlanMap) :
    parsePlanAux (("# Chapter: ".data ++ heading) :: rest) m =
      parsePlanAux rest m := by
  apply parsePlanAux_skip
  right; left
  have hrw : "# Chapter: ".data ++ heading =
      '#' :: (" Chapter: ".data ++ heading) := rfl
  rw [hrw, pyStrip_cons_head _ _ (by decide)]
  simp [pyStartsWith, List.isPrefixOf]

/-- Decoding one well-formed data line `<path> | <degrees>` (with an
allowed degree) inserts the normalized path and continues. -/
theorem parsePlanAux_dataline (q ds : Str) (d : Int) (rest : List Str)
    (m : PlanMap) (hq : wfPath q = true)
    (hds : (d = 0 ∧ ds = "0".data) ∨ (d = 270 ∧ ds = "270".data)) :
    parsePlanAux ((q ++ " | ".data ++ ds) :: rest) m =
      parsePlanAux rest (planInsert m (normalizeSlashes q) d) := by
  obtain ⟨c, t, rfl⟩ : ∃ c t, q = c :: t := by
    cases q with
    | nil => exact absurd hq (by decide)
    | cons c t => exact ⟨c, t, rfl⟩
  simp only [wfPath, Bool.and_eq_true, bne_iff_ne, ne_eq, Bool.not_eq_true',
    decide_eq_true_eq] at hq
  obtain ⟨⟨⟨⟨⟨hcws, hchash⟩, hlast⟩, hpipe⟩, _⟩, _⟩ := hq
  have hq_head : ∀ e, (c :: t).head? = some e → e.isWhitespace = false := by
    intro e he
    simp only [List.head?_cons, Option.some.injEq] at he
    rw [← he]; exact hcws
  have hq_last : ∀ e, (c :: t).getLast? = some e → e.isWhitespace = false := by
    intro e he
    rw [he] at hlast
    simpa using hlast
  have hpipe' : '|' ∉ c :: t := by simpa using hpipe
  have hds_ne : ds ≠ [] := by rcases hds with ⟨_, rfl⟩ | ⟨_, rfl⟩ <;> decide
  have hds_last : ∀ e, ds.getLast? = some e → e.isWhitespace = false := by
    rcases hds with ⟨_, rfl⟩ | ⟨_, rfl⟩ <;> decide
  have hL : (c :: t) ++ " | ".data ++ ds =
      ((c :: t) ++ [' ']) ++ '|' :: (' ' :: ds) := by
    simp [List.append_assoc]
  -- the whole line survives stripping
  have hstrip : pyStrip ((c :: t) ++ " | ".data ++ ds) =
      (c :: t) ++ " | ".data ++ ds := by
    apply pyStrip_eq_self
    · intro e he
      simp only [List.cons_append, List.head?_cons, Option.some.injEq] at he
      rw [← he]; exact hcws
    · intro e he
      rw [List.append_assoc, List.getLast?_append_of_ne_nil _ (by simp [hds_ne])] at he
      rw [List.getLast?_append_of_ne_nil _ hds_ne] at he
      exact hds_last e he
  simp only [parsePlanAux, hstrip]
  rw [if_neg (by simp)]
  rw [if_neg (by
    simp only [List.cons_append, pyStartsWith, List.isPrefixOf_cons₂_self]
    simp [List.isPrefixOf, hchash]
    intro hcontra
    exact absurd hcontra.symm hchash)]
  have hmemL : '|' ∈ (c :: t) ++ " | ".data ++ ds := by
    rw [hL]
    exact List.mem_append_right _ (List.mem_cons_self _ _)
  rw [if_neg (by simp [hmemL])]
  rw [hL, splitFirst_append _ _ _ (by
    intro hmem
    rcases List.mem_append.mp hmem with h' | h'
    · exact hpipe' h'
    · simp at h')]
  have hstrip1 : pyStrip ((c :: t) ++ [' ']) = c :: t := by
    rw [pyStrip_append_space]
    exact pyStrip_eq_self _ hq_head hq_last
  have hstrip2 : pyStrip (' ' :: ds) = ds := by
    unfold pyStrip
    simp only [List.dropWhile_cons]
    rw [if_pos (by decide)]
    rw [dropWhile_eq_self_of_head Char.isWhitespace ds (by
      rcases hds with ⟨_, rfl⟩ | ⟨_, rfl⟩ <;> decide)]
    rw [dropWhile_eq_self_of_head Char.isWhitespace ds.reverse
      (fun e he => hds_last e ((List.head?_reverse ds) ▸ he))]
    exact ds.reverse_reverse
  simp only [hstrip1, hstrip2]
  rcases hds with ⟨rfl, rfl⟩ | ⟨rfl, rfl⟩ <;> rfl

theorem suggested_cases (imgs : ImageStore) (p : Str) :
    suggested_rotation_degrees imgs p = 0 ∨
    suggested_rotation_degrees imgs p = 270 := by
  unfold suggested_rotation_degrees
  rcases imgs p with _ | wh
  · exact Or.inl rfl
  · dsimp only
    split
    · exact Or.inl rfl
    · exact Or.inr rfl

/-- Decoding the item lines the planning pass emits folds every item's
normalized path and suggested degrees into the mapping. -/
theorem parsePlanAux_encode (imgs : ImageStore) (items : List (Str × Str)) :
    ∀ (cur : Option Str) (m : PlanMap),
    (∀ it ∈ items, wfPath (normalizeSlashes it.2) = true) →
    parsePlanAux (encodeItems imgs items cur) m =
      .ok (items.foldl (fun acc it =>
        planInsert acc (normalizeSlashes it.2)
          (suggested_rotation_degrees imgs it.2)) m) := by
  induction items with
  | nil => intro cur m _; rfl
  | cons it rest ih =>
    intro cur m hwf
    obtain ⟨heading, p⟩ := it
    have hq := hwf _ (List.mem_cons_self _ _)
    have hline : ∀ (rest' : List Str) (m' : PlanMap),
        parsePlanAux ((normalizeSlashes p ++ " | ".data ++
          intToChars (suggested_rotation_degrees imgs p)) :: rest') m' =
        parsePlanAux rest' (planInsert m' (normalizeSlashes p)
          (suggested_rotation_degrees imgs p)) := by
      intro rest' m'
      have hkey := normalizeSlashes_idem p
      rcases suggested_cases imgs p with h | h
      · rw [h, parsePlanAux_dataline (normalizeSlashes p) (intToChars 0) 0
          rest' m' hq (by decide), hkey]
      · rw [h, parsePlanAux_dataline (normalizeSlashes p) (intToChars 270) 270
          rest' m' hq (by decide), hkey]
    have hrest := fun cur' m' =>
      ih cur' m' (fun j hj => hwf j (List.mem_cons_of_mem _ hj))
    simp only [encodeItems]
    split
    · rw [chapterLine_skip, hline, hrest, List.foldl_cons]
    · rw [hline, hrest, List.foldl_cons]

theorem planLookup_planInsert (m : PlanMap) (k k' : Str) (v : Int) :
    planLookup (planInsert m k' v) k =
      if k' = k then some v else planLookup m k := by
  by_cases h : k' = k
  · simp [planLookup, planInsert, List.find?_cons, h]
  · simp [planLookup, planInsert, List.find?_cons, h]

/-- Folding dict inserts for a run of items: a key written consistently
by every item that mentions it reads back that value, provided some
item mentions it or the initial state already has it. -/
theorem planLookup_foldl (imgs : ImageStore) (k : Str) (v : Int) :
    ∀ (items : List (Str × Str)) (m : PlanMap),
    (∀ it ∈ items, normalizeSlashes it.2 = k →
      suggested_rotation_degrees imgs it.2 = v) →
    (planLookup m k = some v ∨ ∃ it ∈ items, normalizeSlashes it.2 = k) →
    planLookup (items.foldl (fun acc it =>
      planInsert acc (normalizeSlashes it.2)
        (suggested_rotation_degrees imgs it.2)) m) k = some v := by
  intro items
  induction items with
  | nil =>
    intro m _ hex
    rcases hex with h | ⟨it, hmem, _⟩
    · exact h
    · simp at hmem
  | cons it rest ih =>
    intro m hv hex
    rw [List.foldl_cons]
    apply ih
    · intro j hj hk
      exact hv j (List.mem_cons_of_mem _ hj) hk
    · by_cases hk : normalizeSlashes it.2 = k
      · left
        rw [planLookup_planInsert, if_pos hk,
          hv it (List.mem_cons_self _ _) hk]
      · rcases hex with h | ⟨j, hj, hjk⟩
        · left
          rw [planLookup_planInsert, if_neg hk]
          exact h
        · rcases List.mem_cons.mp hj with rfl | hj'
          · exact absurd hjk hk
          · right
            exact ⟨j, hj', hjk⟩

/-- C1. Rotation plan round-trip: encoding a sequence of
(chapter heading, photo path) items exactly as the planning pass does
(header comment lines, `# Chapter:` lines at heading transitions, one
`<normalized-path> | <degrees>` line per photo) and decoding the result
with `parse_rotation_plan` yields a mapping assigning to each
normalized photo path its suggested default degrees: 0 when the
orientation-corrected image is at least as tall as wide, 270 otherwise.
Paths are assumed well formed (`wfPath`), and photos whose paths
normalize identically must agree on the suggestion (they are the same
file in practice). -/
theorem rotation_plan_roundtrip (imgs : ImageStore) (items : List (Str × Str))
    (hwf : ∀ it ∈ items, wfPath (normalizeSlashes it.2) = true)
    (hcons : ∀ it1 ∈ items, ∀ it2 ∈ items,
      normalizeSlashes it1.2 = normalizeSlashes it2.2 →
      suggested_rotation_degrees imgs it1.2 =
        suggested_rotation_degrees imgs it2.2) :
    ∃ m, parse_rotation_plan (rotationPlanLines imgs items) = .ok m ∧
      ∀ it ∈ items, planLookup m (normalizeSlashes it.2) =
        some (suggested_rotation_degrees imgs it.2) := by
  refine ⟨items.foldl (fun acc it =>
    planInsert acc (normalizeSlashes it.2)
      (suggested_rotation_degrees imgs it.2)) [], ?_, ?_⟩
  · unfold parse_rotation_plan rotationPlanLines
    rw [parsePlanAux_header]
    exact parsePlanAux_encode imgs items none [] hwf
  · intro it hmem
    apply planLookup_foldl
    · intro j hj hk
      exact hcons j hj it hmem hk
    · right
      exact ⟨it, hmem, rfl⟩

/-- A concrete image store for witnesses: one landscape photo, all
other paths portrait. -/
def demoImgs : ImageStore :=
  fun p => if p = "trip/a.jpg".data then some (400, 300) else some (300, 400)

/-- Concrete planning items for witnesses: two photos in one chapter,
one photo in a second chapter. -/
def demoItems : List (Str × Str) :=
  [("Alps".data, "trip/a.jpg".data), ("Alps".data, "trip/b.jpg".data),
   ("Sea".data, "sea/c.png".data)]

/-- Witness for C1 at a concrete store and item list. -/
theorem rotation_plan_roundtrip_witness :
    ∃ m, parse_rotation_plan (rotationPlanLines demoImgs demoItems) = .ok m ∧
      ∀ it ∈ demoItems, planLookup m (normalizeSlashes it.2) =
        some (suggested_rotation_degrees demoImgs it.2) :=
  rotation_plan_roundtrip demoImgs demoItems (by decide) (by decide)

/-
Image ordering, duplicated verbatim in src/01_rotate.py (planning pass)
and src/02_pdf.py (build pass).  Shared runtime pieces (PIL EXIF decode
result, datetime, strptime, os.listdir entries) are modelled once; the
functions the two files each define are embedded once per file, in
namespaces R01 and P02.
-/

/-- `datetime.datetime` restricted to the fields the pipeline uses;
comparison is field-lexicographic, as in Python. -/
structure DateTime where
  year : Nat
  month : Nat
  day : Nat
  hour : Nat
  minute : Nat
  second : Nat
deriving DecidableEq

def natListLe : List Nat → List Nat → Bool
  | [], _ => true
  | _ :: _, [] => false
  | a :: as, b :: bs => if a < b then true else if b < a then false else natListLe as bs

def DateTime.leb (a b : DateTime) : Bool :=
  natListLe [a.year, a.month, a.day, a.hour, a.minute, a.second]
    [b.year, b.month, b.day, b.hour, b.minute, b.second]

/-- Python string comparison: code-point lexicographic. -/
def strLeb : Str → Str → Bool
  | [], _ => true
  | _ :: _, [] => false
  | a :: as, b :: bs =>
    if a.toNat < b.toNat then true
    else if b.toNat < a.toNat then false
    else strLeb as bs

theorem splitFirst_length_lt (sep : Char) (s : Str) (p : Str × Str)
    (h : splitFirst sep s = some p) : p.2.length < s.length := by
  induction s generalizing p with
  | nil => simp [splitFirst] at h
  | cons c rest ih =>
    simp only [splitFirst] at h
    split at h
    · cases h
      simp
    · cases hsp : splitFirst sep rest with
      | none => rw [hsp] at h; cases h
      | some q =>
        rw [hsp] at h
        cases h
        exact Nat.lt_succ_of_lt (ih q hsp)

/-- Python `s.split(sep)` for a single-character separator, with an
accumulator for the field being read. -/
def pySplitAux (sep : Char) : Str → Str → List Str
  | [], acc => [acc.reverse]
  | c :: rest, acc =>
    if c = sep then acc.reverse :: pySplitAux sep rest []
    else pySplitAux sep rest (c :: acc)

/-- Python `s.split(sep)` for a single-character separator. -/
def pySplit (sep : Char) (s : Str) : List Str := pySplitAux sep s []

/-- `datetime.strptime(value, "%Y:%m:%d %H:%M:%S")`, modelled at the
granularity the sort key needs: six numeric fields with range checks;
`none` models a raised `ValueError`. -/
def strptimeExif (s : Str) : Option DateTime :=
  match pySplit ' ' s with
  | [datePart, timePart] =>
    match pySplit ':' datePart, pySplit ':' timePart with
    | [ys, ms, ds], [hs, mins, secs] =>
      match digitsToNat ys, digitsToNat ms, digitsToNat ds,
            digitsToNat hs, digitsToNat mins, digitsToNat secs with
      | some y, some mo, some d, some h, some mi, some se =>
        if 1 ≤ mo ∧ mo ≤ 12 ∧ 1 ≤ d ∧ d ≤ 31 ∧ h ≤ 23 ∧ mi ≤ 59 ∧ se ≤ 59 then
          some ⟨y, mo, d, h, mi, se⟩
        else none
      | _, _, _, _, _, _ => none
    | _, _ => none
  | _ => none

/-- A directory entry as the pipeline observes it: the `os.listdir`
name, whether it is a regular file, the (tag-name-keyed) decoded EXIF
dictionary (`none` models `Image.open`/`_getexif` raising or returning
nothing), and the filesystem mtime (`none` models `getmtime` raising). -/
structure FileEntry where
  name : Str
  isFile : Bool
  exifTags : Option (List (Str × Str))
  mtime : Option DateTime
deriving DecidableEq

/-- A folder: its path and its `os.listdir` contents in listing order. -/
structure Folder where
  path : Str
  files : List FileEntry
deriving DecidableEq

/-- `decoded.get(key)` for the decoded EXIF dictionary. -/
def lookupTag (tags : List (Str × Str)) (k : Str) : Option Str :=
  (tags.find? (fun e => e.1 = k)).map (fun e => e.2)

/-- The sort key is a Python `datetime` or, when even mtime is
unavailable, the lower-cased basename string. -/
inductive SortKey
  | date (d : DateTime)
  | name (s : Str)
deriving DecidableEq

/-- Ordering on sort keys. Python would raise comparing a datetime with
a string; the mixed case never occurs in a comparison the claims rely
on, and any fixed choice leaves the two passes' equality intact. -/
def SortKey.leb : SortKey → SortKey → Bool
  | .date a, .date b => DateTime.leb a b
  | .date _, .name _ => true
  | .name _, .date _ => false
  | .name a, .name b => strLeb a b

/-- Python tuple comparison on `(sort_key, lowered_basename)`. -/
def pairLeb (a b : SortKey × Str) : Bool :=
  if SortKey.leb a.1 b.1 then
    if SortKey.leb b.1 a.1 then strLeb a.2 b.2 else true
  else false

/-- Stable insertion, the building block for `sorted`. -/
def pyInsert (le : α → α → Bool) (a : α) : List α → List α
  | [] => [a]
  | b :: bs => if le a b then a :: b :: bs else b :: pyInsert le a bs

/-- Python `sorted`: a stable ascending sort, modelled as stable
insertion sort (Python's timsort is stable; only the result matters). -/
def pySorted (le : α → α → Bool) : List α → List α
  | [] => []
  | x :: xs => pyInsert le x (pySorted le xs)

namespace R01

/-- The tag-preference loop inside src/01_rotate.py
`get_exif_date_taken`: first truthy value that parses wins. -/
def exifDateLoop (tags : List (Str × Str)) : List Str → Option DateTime
  | [] => none
  | k :: ks =>
    match lookupTag tags k with
    | none => exifDateLoop tags ks
    | some v =>
      if v = [] then exifDateLoop tags ks
      else
        match strptimeExif v with
        | some dt => some dt
        | none => exifDateLoop tags ks

/-- src/01_rotate.py `get_exif_date_taken`. -/
def get_exif_date_taken (f : FileEntry) : Option DateTime :=
  match f.exifTags with
  | none => none
  | some tags =>
    exifDateLoop tags
      ["DateTimeOriginal".data, "DateTimeDigitized".data, "DateTime".data]

/-- src/01_rotate.py `get_image_sort_key` (the file path is
`folder/name`). -/
def get_image_sort_key (folder : Str) (f : FileEntry) : SortKey :=
  match get_exif_date_taken f with
  | some d => .date d
  | none =>
    match f.mtime with
    | some m => .date m
    | none => .name (pyLower (pyBasename (joinPath folder f.name)))

/-- src/01_rotate.py `collect_images`: regular files with an allowed
extension, excluding generated artifacts. -/
def collect_images (folder : Folder) : List FileEntry :=
  folder.files.filter (fun f =>
    f.isFile &&
    (pyEndsWith (pyLower f.name) (".jpg".data) ||
     pyEndsWith (pyLower f.name) (".jpeg".data) ||
     pyEndsWith (pyLower f.name) (".png".data)) &&
    !(strContains (pyLower f.name) ("_processed".data)) &&
    !(pyStartsWith (pyLower f.name) ("pdfprep__".data)))

/-- The composite key of src/01_rotate.py line 117:
`(get_image_sort_key(p), os.path.basename(p).lower())`. -/
def sortKeyPair (folder : Str) (f : FileEntry) : SortKey × Str :=
  (get_image_sort_key folder f, pyLower (pyBasename (joinPath folder f.name)))

/-- `sorted(collect_images(folder), key=...)` as the planning pass
computes it. -/
def sortedImages (folder : Folder) : List FileEntry :=
  pySorted (fun a b => pairLeb (sortKeyPair folder.path a) (sortKeyPair folder.path b))
    (collect_images folder)

end R01

namespace P02

/-- The tag-preference loop inside src/02_pdf.py
`get_exif_date_taken`: first truthy value that parses wins. -/
def exifDateLoop (tags : List (Str × Str)) : List Str → Option DateTime
  | [] => none
  | k :: ks =>
    match lookupTag tags k with
    | none => exifDateLoop tags ks
    | some v =>
      if v = [] then exifDateLoop tags ks
      else
        match strptimeExif v with
        | some dt => some dt
        | none => exifDateLoop tags ks

/-- src/02_pdf.py `get_exif_date_taken`. -/
def get_exif_date_taken (f : FileEntry) : Option DateTime :=
  match f.exifTags with
  | none => none
  | some tags =>
    exifDateLoop tags
      ["DateTimeOriginal".data, "DateTimeDigitized".data, "DateTime".data]

/-- src/02_pdf.py `get_image_sort_key`. -/
def get_image_sort_key (folder : Str) (f : FileEntry) : SortKey :=
  match get_exif_date_taken f with
  | some d => .date d
  | none =>
    match f.mtime with
    | some m => .date m
    | none => .name (pyLower (pyBasename (joinPath folder f.name)))

/-- src/02_pdf.py `collect_images`. -/
def collect_images (folder : Folder) : List FileEntry :=
  folder.files.filter (fun f =>
    f.isFile &&
    (pyEndsWith (pyLower f.name) (".jpg".data) ||
     pyEndsWith (pyLower f.name) (".jpeg".data) ||
     pyEndsWith (pyLower f.name) (".png".data)) &&
    !(strContains (pyLower f.name) ("_processed".data)) &&
    !(pyStartsWith (pyLower f.name) ("pdfprep__".data)))

/-- The composite key of src/02_pdf.py line 365. -/
def sortKeyPair (folder : Str) (f : FileEntry) : SortKey × Str :=
  (get_image_sort_key folder f, pyLower (pyBasename (joinPath folder f.name)))

/-- `sorted(collect_images(folder), key=...)` as the build pass
computes it. -/
def sortedImages (folder : Folder) : List FileEntry :=
  pySorted (fun a b => pairLeb (sortKeyPair folder.path a) (sortKeyPair folder.path b))
    (collect_images folder)

end P02

/-- C5. Planning pass and build pass compute the same photo ordering:
the eligible-file filter, the EXIF date extraction, the composite sort
key, and the resulting sorted photo sequence of src/01_rotate.py and
src/02_pdf.py are equal as functions. -/
theorem ordering_passes_agree :
    R01.get_exif_date_taken = P02.get_exif_date_taken ∧
    R01.get_image_sort_key = P02.get_image_sort_key ∧
    R01.collect_images = P02.collect_images ∧
    R01.sortKeyPair = P02.sortKeyPair ∧
    R01.sortedImages = P02.sortedImages :=
  ⟨rfl, rfl, rfl, rfl, rfl⟩

/-
GPS map lookup, from src/02_pdf.py `find_corresponding_gps_image`.
The folder argument models `gps_folder`: `none` for a missing/absent
directory, otherwise the directory path and its `os.listdir` contents.
-/

/-- `fn.lower().endswith((".png", ".jpg", ".jpeg"))`. -/
def isImageName (fn : Str) : Bool :=
  pyEndsWith (pyLower fn) (".png".data) ||
  pyEndsWith (pyLower fn) (".jpg".data) ||
  pyEndsWith (pyLower fn) (".jpeg".data)

/-- The delimited token `__<stem>__map_`. -/
def mapToken (stem : Str) : Str := "__".data ++ stem ++ "__map_".data

/-- First loop of `find_corresponding_gps_image`: exact-stem match in
exact mode, delimited-token match in every mode. -/
def gpsLoop1 (gps_folder stem mode : Str) : List Str → Option Str
  | [] => none
  | fn :: rest =>
    if ¬ isImageName fn = true then gpsLoop1 gps_folder stem mode rest
    else if mode = "exact".data ∧ pyLower (pyStem fn) = stem then
      some (joinPath gps_folder fn)
    else if strContains (pyLower fn) (mapToken stem) then
      some (joinPath gps_folder fn)
    else gpsLoop1 gps_folder stem mode rest

/-- Second loop (non-exact modes only): loose substring containment of
the stem anywhere in the lowered filename. -/
def gpsLoop2 (gps_folder stem : Str) : List Str → Option Str
  | [] => none
  | fn :: rest =>
    if isImageName fn = true ∧ strContains (pyLower fn) stem = true then
      some (joinPath gps_folder fn)
    else gpsLoop2 gps_folder stem rest

/-- src/02_pdf.py `find_corresponding_gps_image`. -/
def find_corresponding_gps_image (photo_path : Str)
    (gps_folder : Option (Str × List Str)) (mode : Str) : Option Str :=
  match gps_folder with
  | none => none
  | some fl =>
    let stem := pyLower (pyStem (pyBasename photo_path))
    match gpsLoop1 fl.1 stem mode fl.2 with
    | some fp => some fp
    | none =>
      if mode ≠ "exact".data then gpsLoop2 fl.1 stem fl.2 else none

theorem gpsLoop1_none (gps_folder stem mode : Str) (listing : List Str)
    (hmode : mode ≠ "exact".data)
    (h : ∀ fn ∈ listing, isImageName fn = true →
      strContains (pyLower fn) (mapToken stem) = false) :
    gpsLoop1 gps_folder stem mode listing = none := by
  induction listing with
  | nil => rfl
  | cons fn rest ih =>
    simp only [gpsLoop1]
    have hrest := ih (fun g hg => h g (List.mem_cons_of_mem _ hg))
    by_cases himg : isImageName fn = true
    · rw [if_neg (by simp [himg])]
      rw [if_neg (by rintro ⟨he, _⟩; exact hmode he)]
      rw [if_neg (by simp [h fn (List.mem_cons_self _ _) himg])]
      exact hrest
    · rw [if_pos (by simp [himg])]
      exact hrest

theorem gpsLoop1_first_token (gps_folder stem mode : Str)
    (pre post : List Str) (fn : Str)
    (hmode : mode ≠ "exact".data)
    (himg : isImageName fn = true)
    (htok : strContains (pyLower fn) (mapToken stem) = true)
    (hpre : ∀ g ∈ pre, isImageName g = true →
      strContains (pyLower g) (mapToken stem) = false) :
    gpsLoop1 gps_folder stem mode (pre ++ fn :: post) =
      some (joinPath gps_folder fn) := by
  induction pre with
  | nil =>
    simp only [List.nil_append, gpsLoop1]
    rw [if_neg (by simp [himg])]
    rw [if_neg (by rintro ⟨he, _⟩; exact hmode he)]
    rw [if_pos htok]
  | cons g pre ih =>
    simp only [List.cons_append, gpsLoop1]
    have hrest := ih (fun g' hg' => hpre g' (List.mem_cons_of_mem _ hg'))
    by_cases hgimg : isImageName g = true
    · rw [if_neg (by simp [hgimg])]
      rw [if_neg (by rintro ⟨he, _⟩; exact hmode he)]
      rw [if_neg (by simp [hpre g (List.mem_cons_self _ _) hgimg])]
      exact hrest
    · rw [if_pos (by simp [hgimg])]
      exact hrest

/-- C7. Map matching token precision in `stem_contains` (any non-exact)
mode: the matcher first scans for a candidate image filename containing
the delimited token `__<stem>__map_` and returns the first one; only
when no candidate contains the token does it fall back to loose
substring containment; in particular, with map files for stems `img_1`
and `img_10` present in either order, photo stem `img_1` matches the
`img_1` map file, never the `img_10` one. -/
theorem map_matching_token_precision :
    (∀ (photo folder mode : Str) (listing : List Str),
      mode ≠ "exact".data →
      (∀ fn ∈ listing, isImageName fn = true →
        strContains (pyLower fn)
          (mapToken (pyLower (pyStem (pyBasename photo)))) = false) →
      find_corresponding_gps_image photo (some (folder, listing)) mode =
        gpsLoop2 folder (pyLower (pyStem (pyBasename photo))) listing) ∧
    (∀ (photo folder mode : Str) (pre post : List Str) (fn : Str),
      mode ≠ "exact".data →
      isImageName fn = true →
      strContains (pyLower fn)
        (mapToken (pyLower (pyStem (pyBasename photo)))) = true →
      (∀ g ∈ pre, isImageName g = true →
        strContains (pyLower g)
          (mapToken (pyLower (pyStem (pyBasename photo)))) = false) →
      find_corresponding_gps_image photo (some (folder, pre ++ fn :: post)) mode =
        some (joinPath folder fn)) ∧
    (∀ listing : List Str,
      (listing = ["2024__img_1__map_600.png".data, "2024__img_10__map_600.png".data] ∨
       listing = ["2024__img_10__map_600.png".data, "2024__img_1__map_600.png".data]) →
      find_corresponding_gps_image ("img_1.jpg".data)
        (some ("gps".data, listing)) ("stem_contains".data) =
        some ("gps/2024__img_1__map_600.png".data)) := by
  refine ⟨?_, ?_, ?_⟩
  · intro photo folder mode listing hmode h
    simp only [find_corresponding_gps_image]
    rw [gpsLoop1_none folder _ mode listing hmode h]
    simp [hmode]
  · intro photo folder mode pre post fn hmode himg htok hpre
    simp only [find_corresponding_gps_image]
    rw [gpsLoop1_first_token folder _ mode pre post fn hmode himg htok hpre]
  · intro listing hcase
    rcases hcase with rfl | rfl <;> decide

/-- Witness for C7: the `img_1`/`img_10` pair in the adversarial order,
and a token-free folder falling back to the loose scan. -/
theorem map_matching_token_precision_witness :
    find_corresponding_gps_image ("img_1.jpg".data)
      (some ("gps".data,
        ["2024__img_10__map_600.png".data, "2024__img_1__map_600.png".data]))
      ("stem_contains".data) = some ("gps/2024__img_1__map_600.png".data) ∧
    find_corresponding_gps_image ("img_2.jpg".data)
      (some ("gps".data, ["other.png".data])) ("stem_contains".data) =
      gpsLoop2 ("gps".data) (pyLower (pyStem (pyBasename ("img_2.jpg".data))))
        ["other.png".data] :=
  ⟨map_matching_token_precision.2.2 _ (Or.inr rfl),
   map_matching_token_precision.1 ("img_2.jpg".data) ("gps".data)
     ("stem_contains".data) ["other.png".data] (by decide) (by decide)⟩

/-- C8 counterexample: in exact mode the matcher also returns a file
that merely contains the delimited token, even though that file's own
stem differs from the photo stem — the claim "only when the stems are
equal" is false on the code. -/
theorem find_gps_exact_counterexample :
    find_corresponding_gps_image ("img_1.jpg".data)
      (some ("gps".data, ["2024__img_1__map_600.png".data])) ("exact".data) =
      some ("gps/2024__img_1__map_600.png".data) ∧
    ¬ pyLower (pyStem ("2024__img_1__map_600.png".data)) =
        pyLower (pyStem (pyBasename ("img_1.jpg".data))) := by decide

theorem gpsLoop1_sound (gps_folder stem mode : Str) (listing : List Str)
    (fp : Str) (h : gpsLoop1 gps_folder stem mode listing = some fp) :
    ∃ fn ∈ listing, fp = joinPath gps_folder fn ∧ isImageName fn = true ∧
      ((mode = "exact".data ∧ pyLower (pyStem fn) = stem) ∨
       strContains (pyLower fn) (mapToken stem) = true) := by
  induction listing with
  | nil => cases h
  | cons fn rest ih =>
    simp only [gpsLoop1] at h
    split at h
    · obtain ⟨g, hg, hrest⟩ := ih h
      exact ⟨g, List.mem_cons_of_mem _ hg, hrest⟩
    · next himg =>
      split at h
      · next hex =>
        cases h
        exact ⟨fn, List.mem_cons_self _ _, rfl, by simpa using himg, Or.inl hex⟩
      · split at h
        · next htok =>
          cases h
          exact ⟨fn, List.mem_cons_self _ _, rfl, by simpa using himg, Or.inr htok⟩
        · obtain ⟨g, hg, hrest⟩ := ih h
          exact ⟨g, List.mem_cons_of_mem _ hg, hrest⟩

/-- C8 as amended: in exact mode the matcher returns only a listed
image file whose own stem equals the photo stem exactly, or whose
filename contains the delimited token `__<stem>__map_` (the token
branch is not guarded by the mode); the loose substring fallback never
runs in exact mode. -/
theorem find_gps_exact_amended (photo folder : Str) (listing : List Str)
    (r : Str)
    (h : find_corresponding_gps_image photo (some (folder, listing))
      ("exact".data) = some r) :
    ∃ fn ∈ listing, r = joinPath folder fn ∧ isImageName fn = true ∧
      (pyLower (pyStem fn) = pyLower (pyStem (pyBasename photo)) ∨
       strContains (pyLower fn)
         (mapToken (pyLower (pyStem (pyBasename photo)))) = true) := by
  simp only [find_corresponding_gps_image] at h
  cases hl : gpsLoop1 folder (pyLower (pyStem (pyBasename photo)))
      ("exact".data) listing with
  | none =>
    rw [hl, if_neg (fun hc => hc rfl)] at h
    cases h
  | some fp =>
    rw [hl] at h
    cases h
    obtain ⟨fn, hmem, hfp, himg, hcase⟩ :=
      gpsLoop1_sound folder _ ("exact".data) listing r hl
    refine ⟨fn, hmem, hfp, himg, ?_⟩
    rcases hcase with ⟨_, hst⟩ | htok
    · exact Or.inl hst
    · exact Or.inr htok

/-- Witness for the amended C8 at a concrete exact-stem match. -/
theorem find_gps_exact_amended_witness :
    ∃ fn ∈ ["img_3.png".data, "img_2.png".data],
      ("gps/img_2.png".data : Str) = joinPath ("gps".data) fn ∧
      isImageName fn = true ∧
      (pyLower (pyStem fn) = pyLower (pyStem (pyBasename ("img_2.jpg".data))) ∨
       strContains (pyLower fn)
         (mapToken (pyLower (pyStem (pyBasename ("img_2.jpg".data))))) = true) :=
  find_gps_exact_amended ("img_2.jpg".data) ("gps".data)
    ["img_3.png".data, "img_2.png".data] ("gps/img_2.png".data) (by decide)

/-
Transform cache, from src/02_pdf.py `process_photo_to_cache` and
`process_map_to_cache`.  The cache directory is modelled as an
association list from cache filename to the stored raster's pixel
dimensions; the source image store gives the pixel dimensions after
`ImageOps.exif_transpose` (none models `Image.open` raising).
`PIL.Image.thumbnail` is modelled exactly (including its
`round_aspect` floor/ceil choice), over exact rationals in place of
IEEE doubles.
-/

abbrev CacheState := List (Str × (Nat × Nat))

def cacheLookup (c : CacheState) (p : Str) : Option (Nat × Nat) :=
  (c.find? (fun e => e.1 = p)).map (fun e => e.2)

def cacheInsert (c : CacheState) (p : Str) (wh : Nat × Nat) : CacheState :=
  (p, wh) :: c

def PHOTO_TARGET_DPI : Int := 200
def MAP_TARGET_DPI : Int := 170
def PHOTO_JPEG_QUALITY : Int := 72
def MAP_JPEG_QUALITY : Int := 70

/-- `int(round(8.27 * PHOTO_TARGET_DPI))` evaluated: 1654. -/
def photoMaxW : Nat := 1654

/-- `int(round(11.69 * PHOTO_TARGET_DPI))` evaluated: 2338. -/
def photoMaxH : Nat := 2338

/-- `int(round(8.27 * MAP_TARGET_DPI))` evaluated: 1406. -/
def mapMaxW : Nat := 1406

/-- `int(round(2.2 * MAP_TARGET_DPI))` evaluated: 374. -/
def mapMaxH : Nat := 374

/-- `img.rotate(-deg, expand=True)` on pixel dimensions, for the right
angles the pipeline passes (plan-validated degrees, and the fixed 270
for maps): a multiple of 180 keeps the size, other multiples of 90
swap it. -/
def rotatedDims (deg : Int) (wh : Nat × Nat) : Nat × Nat :=
  if deg % 180 = 0 then wh else (wh.2, wh.1)

/-- The rotation step of the cache transform: applied only when
`rotation_deg_cw % 360 != 0`. -/
def appliedRotation (deg : Int) (wh : Nat × Nat) : Nat × Nat :=
  if deg % 360 ≠ 0 then rotatedDims deg wh else wh

/-- `round_aspect(number, key)` inside `PIL.Image.thumbnail`:
`max(min(floor(number), ceil(number), key=key), 1)` (Python `min`
returns its first argument on a key tie). -/
def roundAspect (number : ℚ) (key : ℤ → ℚ) : ℤ :=
  max (if key ⌊number⌋ ≤ key ⌈number⌉ then ⌊number⌋ else ⌈number⌉) 1

/-- `PIL.Image.thumbnail((x, y))` on pixel dimensions: no-op when the
image already fits, otherwise shrink to the target box preserving
aspect ratio (never upscaling), with PIL's exact floor/ceil choice; the
IEEE doubles of the original are modelled by exact rationals. -/
def pilThumbnail (wh mwh : Nat × Nat) : Nat × Nat :=
  if mwh.1 ≥ wh.1 ∧ mwh.2 ≥ wh.2 then wh
  else if (mwh.1 : ℚ) / (mwh.2 : ℚ) ≥ (wh.1 : ℚ) / (wh.2 : ℚ) then
    ((roundAspect ((mwh.2 : ℚ) * ((wh.1 : ℚ) / (wh.2 : ℚ)))
      (fun n => |(wh.1 : ℚ) / (wh.2 : ℚ) - (n : ℚ) / (mwh.2 : ℚ)|)).toNat, mwh.2)
  else
    (mwh.1, (roundAspect ((mwh.1 : ℚ) / ((wh.1 : ℚ) / (wh.2 : ℚ)))
      (fun n => if n = 0 then 0
        else |(wh.1 : ℚ) / (wh.2 : ℚ) - (mwh.1 : ℚ) / (n : ℚ)|)).toNat)

/-- The derived cache filename for a photo:
`{base}__rot{deg}__q{quality}__dpi{dpi}.jpg`, joined to the cache
folder. -/
def photoCachePath (cache_folder src_path : Str) (deg : Int) : Str :=
  joinPath cache_folder
    (pyStem (pyBasename src_path) ++ "__rot".data ++ intToChars deg ++
     "__q".data ++ intToChars PHOTO_JPEG_QUALITY ++
     "__dpi".data ++ intToChars PHOTO_TARGET_DPI ++ ".jpg".data)

/-- The derived cache filename for a map:
`{base}__mapcache_rot{deg}__q{quality}__dpi{dpi}.jpg`. -/
def mapCachePath (cache_folder map_path : Str) (deg : Int) : Str :=
  joinPath cache_folder
    (pyStem (pyBasename map_path) ++ "__mapcache_rot".data ++ intToChars deg ++
     "__q".data ++ intToChars MAP_JPEG_QUALITY ++
     "__dpi".data ++ intToChars MAP_TARGET_DPI ++ ".jpg".data)

/-- src/02_pdf.py `process_photo_to_cache`: reuse the cached file's
dimensions when the derived name exists, otherwise orient, rotate,
downscale into the A4@200dpi envelope, store, and return the result. -/
def process_photo_to_cache (srcDims : ImageStore) (cache : CacheState)
    (src_path cache_folder : Str) (rotation_deg_cw : Int) :
    Except Str ((Str × Nat × Nat) × CacheState) :=
  let out_path := photoCachePath cache_folder src_path rotation_deg_cw
  match cacheLookup cache out_path with
  | some wh => .ok ((out_path, wh.1, wh.2), cache)
  | none =>
    match srcDims src_path with
    | none => .error src_path
    | some wh0 =>
      let wh2 := pilThumbnail (appliedRotation rotation_deg_cw wh0)
        (photoMaxW, photoMaxH)
      .ok ((out_path, wh2.1, wh2.2), cacheInsert cache out_path wh2)

/-- src/02_pdf.py `process_map_to_cache` (same shape, map constants and
banner envelope). -/
def process_map_to_cache (mapDims : ImageStore) (cache : CacheState)
    (map_path cache_folder : Str) (rotate_deg_cw : Int) :
    Except Str ((Str × Nat × Nat) × CacheState) :=
  let out_path := mapCachePath cache_folder map_path rotate_deg_cw
  match cacheLookup cache out_path with
  | some wh => .ok ((out_path, wh.1, wh.2), cache)
  | none =>
    match mapDims map_path with
    | none => .error map_path
    | some wh0 =>
      let wh2 := pilThumbnail (appliedRotation rotate_deg_cw wh0)
        (mapMaxW, mapMaxH)
      .ok ((out_path, wh2.1, wh2.2), cacheInsert cache out_path wh2)

theorem cacheLookup_insert (c : CacheState) (p : Str) (wh : Nat × Nat) :
    cacheLookup (cacheInsert c p wh) p = some wh := by
  simp [cacheLookup, cacheInsert, List.find?_cons]

/-- C3. Transform cache idempotence: when the derived cache filename is
already present, both cache operations return that path with the
cached dimensions and an unchanged cache, for every source store (so
without reading the source); and after any successful call, repeating
it with identical arguments — under any source store, the source need
not still exist — returns the identical result and leaves the cache
unchanged. -/
theorem transform_cache_idempotent :
    (∀ (srcDims : ImageStore) (cache : CacheState) (src folder : Str)
      (deg : Int) (wh : Nat × Nat),
      cacheLookup cache (photoCachePath folder src deg) = some wh →
      process_photo_to_cache srcDims cache src folder deg =
        .ok ((photoCachePath folder src deg, wh.1, wh.2), cache)) ∧
    (∀ (srcDims srcDims2 : ImageStore) (cache c' : CacheState)
      (src folder : Str) (deg : Int) (res : Str × Nat × Nat),
      process_photo_to_cache srcDims cache src folder deg = .ok (res, c') →
      process_photo_to_cache srcDims2 c' src folder deg = .ok (res, c')) ∧
    (∀ (mapDims : ImageStore) (cache : CacheState) (mp folder : Str)
      (deg : Int) (wh : Nat × Nat),
      cacheLookup cache (mapCachePath folder mp deg) = some wh →
      process_map_to_cache mapDims cache mp folder deg =
        .ok ((mapCachePath folder mp deg, wh.1, wh.2), cache)) ∧
    (∀ (mapDims mapDims2 : ImageStore) (cache c' : CacheState)
      (mp folder : Str) (deg : Int) (res : Str × Nat × Nat),
      process_map_to_cache mapDims cache mp folder deg = .ok (res, c') →
      process_map_to_cache mapDims2 c' mp folder deg = .ok (res, c')) := by
  have hitP : ∀ (srcDims : ImageStore) (cache : CacheState)
      (src folder : Str) (deg : Int) (wh : Nat × Nat),
      cacheLookup cache (photoCachePath folder src deg) = some wh →
      process_photo_to_cache srcDims cache src folder deg =
        .ok ((photoCachePath folder src deg, wh.1, wh.2), cache) := by
    intro srcDims cache src folder deg wh h
    simp only [process_photo_to_cache, h]
  have hitM : ∀ (mapDims : ImageStore) (cache : CacheState)
      (mp folder : Str) (deg : Int) (wh : Nat × Nat),
      cacheLookup cache (mapCachePath folder mp deg) = some wh →
      process_map_to_cache mapDims cache mp folder deg =
        .ok ((mapCachePath folder mp deg, wh.1, wh.2), cache) := by
    intro mapDims cache mp folder deg wh h
    simp only [process_map_to_cache, h]
  refine ⟨hitP, ?_, hitM, ?_⟩
  · intro srcDims srcDims2 cache c' src folder deg res h
    cases hc : cacheLookup cache (photoCachePath folder src deg) with
    | some wh =>
      simp only [process_photo_to_cache, hc] at h
      injection h with h1
      injection h1 with hres hcache
      rw [← hres, ← hcache]
      exact hitP srcDims2 cache src folder deg wh hc
    | none =>
      cases hs : srcDims src with
      | none =>
        simp only [process_photo_to_cache, hc, hs] at h
        cases h
      | some wh0 =>
        simp only [process_photo_to_cache, hc, hs] at h
        injection h with h1
        injection h1 with hres hcache
        rw [← hres, ← hcache]
        exact hitP srcDims2 _ src folder deg _ (cacheLookup_insert _ _ _)
  · intro mapDims mapDims2 cache c' mp folder deg res h
    cases hc : cacheLookup cache (mapCachePath folder mp deg) with
    | some wh =>
      simp only [process_map_to_cache, hc] at h
      injection h with h1
      injection h1 with hres hcache
      rw [← hres, ← hcache]
      exact hitM mapDims2 cache mp folder deg wh hc
    | none =>
      cases hs : mapDims mp with
      | none =>
        simp only [process_map_to_cache, hc, hs] at h
        cases h
      | some wh0 =>
        simp only [process_map_to_cache, hc, hs] at h
        injection h with h1
        injection h1 with hres hcache
        rw [← hres, ← hcache]
        exact hitM mapDims2 _ mp folder deg _ (cacheLookup_insert _ _ _)

theorem roundAspect_one_le (q : ℚ) (k : ℤ → ℚ) : 1 ≤ roundAspect q k :=
  le_max_right _ _

theorem roundAspect_le (q : ℚ) (k : ℤ → ℚ) (n : ℤ) (hq : q ≤ (n : ℚ))
    (hn : 1 ≤ n) : roundAspect q k ≤ n := by
  unfold roundAspect
  apply max_le _ hn
  have hceil : ⌈q⌉ ≤ n := Int.ceil_le.mpr hq
  have hfloor : ⌊q⌋ ≤ n := le_trans (Int.floor_le_ceil q) hceil
  split
  · exact hfloor
  · exact hceil

/-- The behaviour of the (rational-exact) `thumbnail` model: output
fits the target box, never exceeds the input, and an input that
already fits is returned unchanged. -/
theorem pilThumbnail_spec (w h x y : Nat) (hw : 1 ≤ w) (hh : 1 ≤ h)
    (hx : 1 ≤ x) (hy : 1 ≤ y) :
    (pilThumbnail (w, h) (x, y)).1 ≤ x ∧ (pilThumbnail (w, h) (x, y)).2 ≤ y ∧
    (pilThumbnail (w, h) (x, y)).1 ≤ w ∧ (pilThumbnail (w, h) (x, y)).2 ≤ h ∧
    (w ≤ x → h ≤ y → pilThumbnail (w, h) (x, y) = (w, h)) := by
  have hqw : (0 : ℚ) < (w : ℚ) := by exact_mod_cast hw
  have hqh : (0 : ℚ) < (h : ℚ) := by exact_mod_cast hh
  have hqx : (0 : ℚ) < (x : ℚ) := by exact_mod_cast hx
  have hqy : (0 : ℚ) < (y : ℚ) := by exact_mod_cast hy
  unfold pilThumbnail
  dsimp only
  by_cases hfit : x ≥ w ∧ y ≥ h
  · rw [if_pos hfit]
    exact ⟨hfit.1, hfit.2, le_refl w, le_refl h, fun _ _ => rfl⟩
  · rw [if_neg hfit]
    by_cases hbr : (x : ℚ) / (y : ℚ) ≥ (w : ℚ) / (h : ℚ)
    · rw [if_pos hbr]
      dsimp only
      have hwyxh : (w : ℚ) * (y : ℚ) ≤ (x : ℚ) * (h : ℚ) := by
        rw [ge_iff_le, div_le_div_iff hqh hqy] at hbr
        exact hbr
      have hyh : y < h := by
        by_contra hcon
        push_neg at hcon
        apply hfit
        refine ⟨?_, hcon⟩
        have hn : w * y ≤ x * h := by exact_mod_cast hwyxh
        have hwh : w * h ≤ x * h := le_trans
          (Nat.mul_le_mul_left w hcon) hn
        exact Nat.le_of_mul_le_mul_right hwh (Nat.lt_of_lt_of_le Nat.zero_lt_one hh)
      have hta : (y : ℚ) * ((w : ℚ) / (h : ℚ)) ≤ (x : ℚ) := by
        rw [mul_comm, ← le_div_iff hqy]
        exact hbr
      have htw : (y : ℚ) * ((w : ℚ) / (h : ℚ)) ≤ (w : ℚ) := by
        rw [mul_div_assoc', div_le_iff hqh, mul_comm (w : ℚ) (h : ℚ)]
        have : (y : ℚ) ≤ (h : ℚ) := by exact_mod_cast hyh.le
        exact mul_le_mul_of_nonneg_right this hqw.le
      refine ⟨?_, le_refl y, ?_, hyh.le, fun hwx hhy => absurd ⟨hwx, hhy⟩ hfit⟩
      · exact Int.toNat_le.mpr (roundAspect_le _ _ _ (by push_cast; exact hta)
          (by exact_mod_cast hx))
      · exact Int.toNat_le.mpr (roundAspect_le _ _ _ (by push_cast; exact htw)
          (by exact_mod_cast hw))
    · rw [if_neg hbr]
      dsimp only
      push_neg at hbr
      have hxhwy : (x : ℚ) * (h : ℚ) < (w : ℚ) * (y : ℚ) := by
        rw [div_lt_div_iff hqy hqh] at hbr
        exact hbr
      have hxw : x < w := by
        by_contra hcon
        push_neg at hcon
        apply hfit
        refine ⟨hcon, ?_⟩
        have hn : x * h < w * y := by exact_mod_cast hxhwy
        have hwh : w * h < w * y := Nat.lt_of_le_of_lt
          (Nat.mul_le_mul_right h hcon) hn
        exact (Nat.lt_of_mul_lt_mul_left hwh).le
      have hdiv : (x : ℚ) / ((w : ℚ) / (h : ℚ)) = (x : ℚ) * (h : ℚ) / (w : ℚ) := by
        rw [div_div_eq_mul_div]
      have hty : (x : ℚ) / ((w : ℚ) / (h : ℚ)) ≤ (y : ℚ) := by
        rw [hdiv, div_le_iff hqw]
        calc (x : ℚ) * (h : ℚ) ≤ (w : ℚ) * (y : ℚ) := hxhwy.le
        _ = (y : ℚ) * (w : ℚ) := mul_comm _ _
      have hth : (x : ℚ) / ((w : ℚ) / (h : ℚ)) ≤ (h : ℚ) := by
        rw [hdiv, div_le_iff hqw]
        have : (x : ℚ) ≤ (w : ℚ) := by exact_mod_cast hxw.le
        calc (x : ℚ) * (h : ℚ) ≤ (w : ℚ) * (h : ℚ) :=
          mul_le_mul_of_nonneg_right this hqh.le
        _ = (h : ℚ) * (w : ℚ) := mul_comm _ _
      refine ⟨le_refl x, ?_, hxw.le, ?_, fun hwx hhy => absurd ⟨hwx, hhy⟩ hfit⟩
      · exact Int.toNat_le.mpr (roundAspect_le _ _ _ (by push_cast; exact hty)
          (by exact_mod_cast hy))
      · exact Int.toNat_le.mpr (roundAspect_le _ _ _ (by push_cast; exact hth)
          (by exact_mod_cast hh))

theorem appliedRotation_pos (deg : Int) (w0 h0 : Nat) (hw : 1 ≤ w0)
    (hh : 1 ≤ h0) :
    1 ≤ (appliedRotation deg (w0, h0)).1 ∧
    1 ≤ (appliedRotation deg (w0, h0)).2 := by
  unfold appliedRotation rotatedDims
  split
  · split
    · exact ⟨hw, hh⟩
    · exact ⟨hh, hw⟩
  · exact ⟨hw, hh⟩

/-- C4. No-upscale guarantee of the transform cache: on a cache miss
for a readable source, the output dimensions are at most the kind's
envelope (A4 at 200 dpi for photos: 1654 x 2338; page width by banner
height at 170 dpi for maps: 1406 x 374) in both axes, never exceed the
source's dimensions after orientation correction and requested
rotation, and equal the rotated source's dimensions whenever those
already fit the envelope. -/
theorem no_upscale_envelope :
    (∀ (srcDims : ImageStore) (cache : CacheState) (src folder : Str)
      (deg : Int) (w0 h0 : Nat),
      cacheLookup cache (photoCachePath folder src deg) = none →
      srcDims src = some (w0, h0) → 1 ≤ w0 → 1 ≤ h0 →
      ∃ w2 h2 c2,
        process_photo_to_cache srcDims cache src folder deg =
          .ok ((photoCachePath folder src deg, w2, h2), c2) ∧
        w2 ≤ photoMaxW ∧ h2 ≤ photoMaxH ∧
        w2 ≤ (appliedRotation deg (w0, h0)).1 ∧
        h2 ≤ (appliedRotation deg (w0, h0)).2 ∧
        ((appliedRotation deg (w0, h0)).1 ≤ photoMaxW →
         (appliedRotation deg (w0, h0)).2 ≤ photoMaxH →
         w2 = (appliedRotation deg (w0, h0)).1 ∧
         h2 = (appliedRotation deg (w0, h0)).2)) ∧
    (∀ (mapDims : ImageStore) (cache : CacheState) (mp folder : Str)
      (deg : Int) (w0 h0 : Nat),
      cacheLookup cache (mapCachePath folder mp deg) = none →
      mapDims mp = some (w0, h0) → 1 ≤ w0 → 1 ≤ h0 →
      ∃ w2 h2 c2,
        process_map_to_cache mapDims cache mp folder deg =
          .ok ((mapCachePath folder mp deg, w2, h2), c2) ∧
        w2 ≤ mapMaxW ∧ h2 ≤ mapMaxH ∧
        w2 ≤ (appliedRotation deg (w0, h0)).1 ∧
        h2 ≤ (appliedRotation deg (w0, h0)).2 ∧
        ((appliedRotation deg (w0, h0)).1 ≤ mapMaxW →
         (appliedRotation deg (w0, h0)).2 ≤ mapMaxH →
         w2 = (appliedRotation deg (w0, h0)).1 ∧
         h2 = (appliedRotation deg (w0, h0)).2)) := by
  constructor
  · intro srcDims cache src folder deg w0 h0 hmiss hsrc hw hh
    obtain ⟨hr1, hr2⟩ := appliedRotation_pos deg w0 h0 hw hh
    obtain ⟨b1, b2, b3, b4, b5⟩ := pilThumbnail_spec
      (appliedRotation deg (w0, h0)).1 (appliedRotation deg (w0, h0)).2
      photoMaxW photoMaxH hr1 hr2 (by decide) (by decide)
    refine ⟨(pilThumbnail (appliedRotation deg (w0, h0)) (photoMaxW, photoMaxH)).1,
      (pilThumbnail (appliedRotation deg (w0, h0)) (photoMaxW, photoMaxH)).2,
      cacheInsert cache (photoCachePath folder src deg)
        (pilThumbnail (appliedRotation deg (w0, h0)) (photoMaxW, photoMaxH)),
      ?_, b1, b2, b3, b4, ?_⟩
    · simp only [process_photo_to_cache, hmiss, hsrc]
    · intro hfw hfh
      have := b5 hfw hfh
      rw [this]
      exact ⟨rfl, rfl⟩
  · intro mapDims cache mp folder deg w0 h0 hmiss hsrc hw hh
    obtain ⟨hr1, hr2⟩ := appliedRotation_pos deg w0 h0 hw hh
    obtain ⟨b1, b2, b3, b4, b5⟩ := pilThumbnail_spec
      (appliedRotation deg (w0, h0)).1 (appliedRotation deg (w0, h0)).2
      mapMaxW mapMaxH hr1 hr2 (by decide) (by decide)
    refine ⟨(pilThumbnail (appliedRotation deg (w0, h0)) (mapMaxW, mapMaxH)).1,
      (pilThumbnail (appliedRotation deg (w0, h0)) (mapMaxW, mapMaxH)).2,
      cacheInsert cache (mapCachePath folder mp deg)
        (pilThumbnail (appliedRotation deg (w0, h0)) (mapMaxW, mapMaxH)),
      ?_, b1, b2, b3, b4, ?_⟩
    · simp only [process_map_to_cache, hmiss, hsrc]
    · intro hfw hfh
      have := b5 hfw hfh
      rw [this]
      exact ⟨rfl, rfl⟩

/-- Witness for C4: a 3000 x 2000 photo rotated 90 degrees on a cache
miss, and a small 500 x 300 map already inside its envelope. -/
theorem no_upscale_envelope_witness :
    (∃ w2 h2 c2,
      process_photo_to_cache (fun _ => some (3000, 2000)) []
        ("a.jpg".data) ("out".data) 90 =
        .ok ((photoCachePath ("out".data) ("a.jpg".data) 90, w2, h2), c2) ∧
      w2 ≤ photoMaxW ∧ h2 ≤ photoMaxH ∧
      w2 ≤ (appliedRotation 90 (3000, 2000)).1 ∧
      h2 ≤ (appliedRotation 90 (3000, 2000)).2 ∧
      ((appliedRotation 90 (3000, 2000)).1 ≤ photoMaxW →
       (appliedRotation 90 (3000, 2000)).2 ≤ photoMaxH →
       w2 = (appliedRotation 90 (3000, 2000)).1 ∧
       h2 = (appliedRotation 90 (3000, 2000)).2)) ∧
    (∃ w2 h2 c2,
      process_map_to_cache (fun _ => some (500, 300)) []
        ("m.png".data) ("out".data) 0 =
        .ok ((mapCachePath ("out".data) ("m.png".data) 0, w2, h2), c2) ∧
      w2 ≤ mapMaxW ∧ h2 ≤ mapMaxH ∧
      w2 ≤ (appliedRotation 0 (500, 300)).1 ∧
      h2 ≤ (appliedRotation 0 (500, 300)).2 ∧
      ((appliedRotation 0 (500, 300)).1 ≤ mapMaxW →
       (appliedRotation 0 (500, 300)).2 ≤ mapMaxH →
       w2 = (appliedRotation 0 (500, 300)).1 ∧
       h2 = (appliedRotation 0 (500, 300)).2)) :=
  ⟨no_upscale_envelope.1 (fun _ => some (3000, 2000)) [] ("a.jpg".data)
      ("out".data) 90 3000 2000 (by decide) (by decide) (by decide) (by decide),
   no_upscale_envelope.2 (fun _ => some (500, 300)) [] ("m.png".data)
      ("out".data) 0 500 300 (by decide) (by decide) (by decide) (by decide)⟩

/-- Witness for C3: a populated cache entry is returned as-is with the
source store empty (source deleted), and a second photo call after a
cold first call reproduces the first result. -/
theorem transform_cache_idempotent_witness :
    process_photo_to_cache (fun _ => none)
      [(photoCachePath ("out".data) ("a.jpg".data) 90, (10, 20))]
      ("a.jpg".data) ("out".data) 90 =
      .ok ((photoCachePath ("out".data) ("a.jpg".data) 90, 10, 20),
        [(photoCachePath ("out".data) ("a.jpg".data) 90, (10, 20))]) ∧
    process_photo_to_cache (fun _ => none)
      (cacheInsert [] (photoCachePath ("out".data) ("a.jpg".data) 90) (200, 100))
      ("a.jpg".data) ("out".data) 90 =
      .ok ((photoCachePath ("out".data) ("a.jpg".data) 90, 200, 100),
        cacheInsert [] (photoCachePath ("out".data) ("a.jpg".data) 90) (200, 100)) ∧
    process_map_to_cache (fun _ => none)
      [(mapCachePath ("out".data) ("m.png".data) 270, (30, 40))]
      ("m.png".data) ("out".data) 270 =
      .ok ((mapCachePath ("out".data) ("m.png".data) 270, 30, 40),
        [(mapCachePath ("out".data) ("m.png".data) 270, (30, 40))]) ∧
    process_map_to_cache (fun _ => none)
      (cacheInsert [] (mapCachePath ("out".data) ("m.png".data) 270) (100, 200))
      ("m.png".data) ("out".data) 270 =
      .ok ((mapCachePath ("out".data) ("m.png".data) 270, 100, 200),
        cacheInsert [] (mapCachePath ("out".data) ("m.png".data) 270) (100, 200)) :=
  ⟨transform_cache_idempotent.1 (fun _ => none) _ ("a.jpg".data) ("out".data)
      90 (10, 20) (by decide),
   transform_cache_idempotent.2.1 (fun _ => some (100, 200)) (fun _ => none)
      [] _ ("a.jpg".data) ("out".data) 90 _ (by decide),
   transform_cache_idempotent.2.2.1 (fun _ => none) _ ("m.png".data)
      ("out".data) 270 (30, 40) (by decide),
   transform_cache_idempotent.2.2.2 (fun _ => some (200, 100)) (fun _ => none)
      [] _ ("m.png".data) ("out".data) 270 _ (by decide)⟩

/-
Page geometry and compositor, from src/02_pdf.py `main` (lines
339-356 for the constants, 386-409 for the per-page placement).
Millimeter values are exact rationals.
-/

def page_w : ℚ := 210
def page_h : ℚ := 297
def margin_x : ℚ := 10
def margin_y : ℚ := 12
def gutter_y : ℚ := 6
def usable_w : ℚ := page_w - 2 * margin_x
def usable_h : ℚ := page_h - 2 * margin_y
def map_max_h : ℚ := 60
def map_area_h : ℚ := map_max_h
def photo_area_h : ℚ := usable_h - map_area_h - gutter_y

/-- `px * 25.4 / 300`: pixels to millimeters at the fixed reference
DPI. -/
def pxToMm (px : Nat) : ℚ := (px : ℚ) * (254 / 10) / 300

/-- The placement computation of `main` for one content raster in one
band: uniform scale `min(band_w / w_mm, band_h / h_mm)`, then centering
on both axes; returns `(x, y, w, h)` in millimeters. -/
def placeContent (bandX bandY bandW bandH : ℚ) (wpx hpx : Nat) :
    ℚ × ℚ × ℚ × ℚ :=
  (bandX + (bandW - pxToMm wpx * min (bandW / pxToMm wpx) (bandH / pxToMm hpx)) / 2,
   bandY + (bandH - pxToMm hpx * min (bandW / pxToMm wpx) (bandH / pxToMm hpx)) / 2,
   pxToMm wpx * min (bandW / pxToMm wpx) (bandH / pxToMm hpx),
   pxToMm hpx * min (bandW / pxToMm wpx) (bandH / pxToMm hpx))

theorem placeContent_spec (bandX bandY bandW bandH : ℚ) (wpx hpx : Nat)
    (hw : 1 ≤ wpx) (hh : 1 ≤ hpx) (hbw : 0 < bandW) (hbh : 0 < bandH)
    (X Y W H : ℚ)
    (heq : placeContent bandX bandY bandW bandH wpx hpx = (X, Y, W, H)) :
    W * (hpx : ℚ) = H * (wpx : ℚ) ∧
    W ≤ bandW ∧ H ≤ bandH ∧
    X - bandX = (bandX + bandW) - (X + W) ∧
    Y - bandY = (bandY + bandH) - (Y + H) := by
  have hqw : (0 : ℚ) < (wpx : ℚ) := by exact_mod_cast hw
  have hqh : (0 : ℚ) < (hpx : ℚ) := by exact_mod_cast hh
  have hmw : 0 < pxToMm wpx := by
    unfold pxToMm
    positivity
  have hmh : 0 < pxToMm hpx := by
    unfold pxToMm
    positivity
  unfold placeContent at heq
  obtain ⟨hX, hY, hW, hH⟩ : X = _ ∧ Y = _ ∧ W = _ ∧ H = _ := by
    have h1 := congrArg (fun p => p.1) heq
    have h2 := congrArg (fun p => p.2.1) heq
    have h3 := congrArg (fun p => p.2.2.1) heq
    have h4 := congrArg (fun p => p.2.2.2) heq
    exact ⟨h1.symm, h2.symm, h3.symm, h4.symm⟩
  refine ⟨?_, ?_, ?_, ?_, ?_⟩
  · rw [hW, hH]
    unfold pxToMm
    ring
  · rw [hW]
    calc pxToMm wpx * min (bandW / pxToMm wpx) (bandH / pxToMm hpx)
        ≤ pxToMm wpx * (bandW / pxToMm wpx) :=
          mul_le_mul_of_nonneg_left (min_le_left _ _) hmw.le
    _ = bandW := by field_simp
  · rw [hH]
    calc pxToMm hpx * min (bandW / pxToMm wpx) (bandH / pxToMm hpx)
        ≤ pxToMm hpx * (bandH / pxToMm hpx) :=
          mul_le_mul_of_nonneg_left (min_le_right _ _) hmh.le
    _ = bandH := by field_simp
  · rw [hX, hW]
    ring
  · rw [hY, hH]
    ring

/-- C9. Page layout non-distortion and centering: for the map band
(`x = margin_x`, `y = margin_y`, `usable_w` x `map_area_h`) and the
photo band (below map and gutter, `usable_w` x `photo_area_h`), the
compositor scales both pixel dimensions (converted at 300 dpi) by the
single uniform factor `min(band_w / w_mm, band_h / h_mm)`, so the
placed rectangle keeps the raster's width/height ratio exactly, fits
inside its band, and is centered in the band on both axes. -/
theorem compositor_no_distortion (wpx hpx : Nat) (hw : 1 ≤ wpx)
    (hh : 1 ≤ hpx) (X Y W H X2 Y2 W2 H2 : ℚ)
    (hmap : placeContent margin_x margin_y usable_w map_area_h wpx hpx =
      (X, Y, W, H))
    (hphoto : placeContent margin_x (margin_y + map_area_h + gutter_y)
      usable_w photo_area_h wpx hpx = (X2, Y2, W2, H2)) :
    (W * (hpx : ℚ) = H * (wpx : ℚ) ∧ W ≤ usable_w ∧ H ≤ map_area_h ∧
      X - margin_x = (margin_x + usable_w) - (X + W) ∧
      Y - margin_y = (margin_y + map_area_h) - (Y + H)) ∧
    (W2 * (hpx : ℚ) = H2 * (wpx : ℚ) ∧ W2 ≤ usable_w ∧ H2 ≤ photo_area_h ∧
      X2 - margin_x = (margin_x + usable_w) - (X2 + W2) ∧
      Y2 - (margin_y + map_area_h + gutter_y) =
        ((margin_y + map_area_h + gutter_y) + photo_area_h) - (Y2 + H2)) :=
  ⟨placeContent_spec margin_x margin_y usable_w map_area_h wpx hpx hw hh
      (by norm_num [usable_w, page_w, margin_x])
      (by norm_num [map_area_h, map_max_h]) X Y W H hmap,
   placeContent_spec margin_x (margin_y + map_area_h + gutter_y) usable_w
      photo_area_h wpx hpx hw hh
      (by norm_num [usable_w, page_w, margin_x])
      (by norm_num [photo_area_h, usable_h, page_h, margin_y, map_area_h,
        map_max_h, gutter_y]) X2 Y2 W2 H2 hphoto⟩

/-- Witness for C9 at a 4000 x 3000 raster. -/
theorem compositor_no_distortion_witness :
    ((placeContent margin_x margin_y usable_w map_area_h 4000 3000).2.2.1 *
        (3000 : ℚ) =
      (placeContent margin_x margin_y usable_w map_area_h 4000 3000).2.2.2 *
        (4000 : ℚ) ∧
      (placeContent margin_x margin_y usable_w map_area_h 4000 3000).2.2.1 ≤
        usable_w ∧
      (placeContent margin_x margin_y usable_w map_area_h 4000 3000).2.2.2 ≤
        map_area_h ∧
      (placeContent margin_x margin_y usable_w map_area_h 4000 3000).1 -
          margin_x =
        (margin_x + usable_w) -
          ((placeContent margin_x margin_y usable_w map_area_h 4000 3000).1 +
           (placeContent margin_x margin_y usable_w map_area_h 4000 3000).2.2.1) ∧
      (placeContent margin_x margin_y usable_w map_area_h 4000 3000).2.1 -
          margin_y =
        (margin_y + map_area_h) -
          ((placeContent margin_x margin_y usable_w map_area_h 4000 3000).2.1 +
           (placeContent margin_x margin_y usable_w map_area_h 4000 3000).2.2.2)) ∧
    ((placeContent margin_x (margin_y + map_area_h + gutter_y) usable_w
        photo_area_h 4000 3000).2.2.1 * (3000 : ℚ) =
      (placeContent margin_x (margin_y + map_area_h + gutter_y) usable_w
        photo_area_h 4000 3000).2.2.2 * (4000 : ℚ) ∧
      (placeContent margin_x (margin_y + map_area_h + gutter_y) usable_w
        photo_area_h 4000 3000).2.2.1 ≤ usable_w ∧
      (placeContent margin_x (margin_y + map_area_h + gutter_y) usable_w
        photo_area_h 4000 3000).2.2.2 ≤ photo_area_h ∧
      (placeContent margin_x (margin_y + map_area_h + gutter_y) usable_w
          photo_area_h 4000 3000).1 - margin_x =
        (margin_x + usable_w) -
          ((placeContent margin_x (margin_y + map_area_h + gutter_y) usable_w
              photo_area_h 4000 3000).1 +
           (placeContent margin_x (margin_y + map_area_h + gutter_y) usable_w
              photo_area_h 4000 3000).2.2.1) ∧
      (placeContent margin_x (margin_y + map_area_h + gutter_y) usable_w
          photo_area_h 4000 3000).2.1 - (margin_y + map_area_h + gutter_y) =
        ((margin_y + map_area_h + gutter_y) + photo_area_h) -
          ((placeContent margin_x (margin_y + map_area_h + gutter_y) usable_w
              photo_area_h 4000 3000).2.1 +
           (placeContent margin_x (margin_y + map_area_h + gutter_y) usable_w
              photo_area_h 4000 3000).2.2.2)) :=
  compositor_no_distortion 4000 3000 (by decide) (by decide)
    (placeContent margin_x margin_y usable_w map_area_h 4000 3000).1
    (placeContent margin_x margin_y usable_w map_area_h 4000 3000).2.1
    (placeContent margin_x margin_y usable_w map_area_h 4000 3000).2.2.1
    (placeContent margin_x margin_y usable_w map_area_h 4000 3000).2.2.2
    (placeContent margin_x (margin_y + map_area_h + gutter_y) usable_w
      photo_area_h 4000 3000).1
    (placeContent margin_x (margin_y + map_area_h + gutter_y) usable_w
      photo_area_h 4000 3000).2.1
    (placeContent margin_x (margin_y + map_area_h + gutter_y) usable_w
      photo_area_h 4000 3000).2.2.1
    (placeContent margin_x (margin_y + map_area_h + gutter_y) usable_w
      photo_area_h 4000 3000).2.2.2
    rfl rfl

theorem splitFirst_mem (sep : Char) (s : Str) (pd : Str × Str)
    (h : splitFirst sep s = some pd) : sep ∈ s := by
  induction s generalizing pd with
  | nil => cases h
  | cons c rest ih =>
    simp only [splitFirst] at h
    split at h
    · next hc => exact hc ▸ List.mem_cons_self _ _
    · cases hsp : splitFirst sep rest with
      | none => rw [hsp] at h; cases h
      | some q => exact List.mem_cons_of_mem _ (ih q hsp)

/-- A decoded data line whose parsed degree is outside the allowed set
fails the whole decode with an invalid-value error. -/
theorem parsePlanAux_invalid (l : Str) (rest : List Str) (m : PlanMap)
    (pd : Str × Str) (deg : Int)
    (hhash : pyStartsWith (pyStrip l) ['#'] = false)
    (hsp : splitFirst '|' (pyStrip l) = some pd)
    (hdeg : parseInt (pyStrip pd.2) = some deg)
    (hbad : ¬ (deg = 0 ∨ deg = 90 ∨ deg = 180 ∨ deg = 270)) :
    parsePlanAux (l :: rest) m = .error (.invalidDegree deg l) := by
  have hs_ne : pyStrip l ≠ [] := by
    intro he
    rw [he] at hsp
    cases hsp
  have hmem : '|' ∈ pyStrip l := splitFirst_mem '|' (pyStrip l) pd hsp
  simp only [parsePlanAux]
  rw [if_neg hs_ne, if_neg (by simp [hhash]), if_neg (by simp [hmem]), hsp]
  simp only [hdeg]
  rw [if_neg hbad]

/-- C6. Plan decode validation: blank lines and `#` lines are skipped;
a data line is split once on `|`, both parts trimmed; a parsed degree
outside {0, 90, 180, 270} fails the whole decode with an invalid-value
error (concretely, degrees 45); and a well-formed line with degrees 270
decodes to a mapping sending the exact backslash-normalized path to
270. -/
theorem parse_plan_validation :
    (∀ (l : Str) (rest : List Str) (m : PlanMap),
      pyStrip l = [] ∨ pyStartsWith (pyStrip l) ['#'] = true →
      parsePlanAux (l :: rest) m = parsePlanAux rest m) ∧
    (∀ (l : Str) (rest : List Str) (m : PlanMap) (pd : Str × Str) (deg : Int),
      pyStartsWith (pyStrip l) ['#'] = false →
      splitFirst '|' (pyStrip l) = some pd →
      parseInt (pyStrip pd.2) = some deg →
      ¬ (deg = 0 ∨ deg = 90 ∨ deg = 180 ∨ deg = 270) →
      parsePlanAux (l :: rest) m = .error (.invalidDegree deg l)) ∧
    (∀ (rest : List Str) (m : PlanMap),
      parsePlanAux (("photos\\a.jpg | 45".data) :: rest) m =
        .error (.invalidDegree 45 ("photos\\a.jpg | 45".data))) ∧
    parse_rotation_plan ["photos\\a.jpg | 270".data] =
      .ok [("photos/a.jpg".data, 270)] ∧
    planLookup [("photos/a.jpg".data, 270)] ("photos/a.jpg".data) = some 270 := by
  refine ⟨?_, ?_, ?_, by decide, by decide⟩
  · intro l rest m h
    exact parsePlanAux_skip l rest m (by tauto)
  · exact parsePlanAux_invalid
  · intro rest m
    exact parsePlanAux_invalid _ rest m ("photos\\a.jpg ".data, " 45".data)
      45 (by decide) (by decide) (by decide) (by decide)

/-- Witness for C6: a comment line is skipped; a 45-degree line fails. -/
theorem parse_plan_validation_witness :
    parsePlanAux (("# note".data) :: ["a.jpg | 0".data]) [] =
      parsePlanAux ["a.jpg | 0".data] [] ∧
    parsePlanAux [("b.jpg | 45".data)] [] =
      .error (.invalidDegree 45 ("b.jpg | 45".data)) :=
  ⟨parse_plan_validation.1 _ _ _ (Or.inr (by decide)),
   parse_plan_validation.2.1 _ _ _ ("b.jpg ".data, " 45".data) 45
     (by decide) (by decide) (by decide) (by decide)⟩

/-- The parse is insensitive to replacing a run of lines by another run
that transforms the dict identically. -/
theorem parsePlanAux_append_congr (rest1 rest2 : List Str)
    (h : ∀ m, parsePlanAux rest1 m = parsePlanAux rest2 m) :
    ∀ (pre : List Str) (m : PlanMap),
    parsePlanAux (pre ++ rest1) m = parsePlanAux (pre ++ rest2) m := by
  intro pre
  induction pre with
  | nil => exact h
  | cons a pre ih =>
    intro m
    simp only [List.cons_append, parsePlanAux]
    split
    · exact ih m
    · split
      · exact ih m
      · split
        · exact ih m
        · split
          · exact ih m
          · split
            · rfl
            · split
              · exact ih _
              · rfl

/-- C10. `parse_rotation_plan` silently ignores malformed data lines:
a non-blank, non-comment line containing no `|` separator is skipped
with no error and no mapping entry — deleting the separator from a
plan line produces no decode-time diagnostic; the parse of the rest of
the document is unchanged. -/
theorem malformed_line_ignored (pre rest : List Str) (l : Str)
    (hne : pyStrip l ≠ [])
    (hhash : pyStartsWith (pyStrip l) ['#'] = false)
    (hpipe : '|' ∉ pyStrip l) :
    parse_rotation_plan (pre ++ l :: rest) = parse_rotation_plan (pre ++ rest) := by
  unfold parse_rotation_plan
  apply parsePlanAux_append_congr
  intro m
  apply parsePlanAux_skip
  right; right
  simpa using hpipe

/-- Witness for C10: a plan line whose separator was deleted. -/
theorem malformed_line_ignored_witness :
    parse_rotation_plan
      (["photos/a.jpg | 0".data] ++ ("photos/b.jpg 90".data) :: ["photos/c.jpg | 180".data]) =
    parse_rotation_plan (["photos/a.jpg | 0".data] ++ ["photos/c.jpg | 180".data]) :=
  malformed_line_ignored ["photos/a.jpg | 0".data] ["photos/c.jpg | 180".data]
    ("photos/b.jpg 90".data) (by decide) (by decide) (by decide)

/-
The build pass driver, from src/02_pdf.py `main`.  The world supplies
what the filesystem supplies: whether rotation_plan.txt exists and its
lines, and the pixel dimensions of source photos and maps.  The PDF
object is modelled as the list of pages built; `pdf.output` runs only
after the loop, so an error means no output document is written.
-/

/-- One `input_folders` entry: `[folder_path, heading, thumb_rel]`. -/
structure InputFolder where
  folder : Folder
  heading : Str
  thumbRel : Option Str
deriving DecidableEq

/-- The configuration fields `main` reads. -/
structure BuildConfig where
  output_folder : Str
  input_folders : List InputFolder
  gps_image_folder : Option (Str × List Str)
  gps_match : Str
deriving DecidableEq

/-- The filesystem state a build runs against. -/
structure BuildWorld where
  planExists : Bool
  planLines : List Str
  srcImgs : ImageStore
  mapImgs : ImageStore

/-- A page of the output document: a chapter divider, or a photo page
with its computed placement rectangles (map band, photo band). -/
inductive Page
  | chapterPage (heading : Str) (thumb : Option Str)
  | photoPage (mapRect : Option (ℚ × ℚ × ℚ × ℚ)) (photoRect : ℚ × ℚ × ℚ × ℚ)
deriving DecidableEq

/-- The fatal errors `main` can raise before producing output. -/
inductive BuildErr
  | planNotFound (plan_path : Str)
  | planParse (e : PlanError)
  | layoutTooTight
  | imageOpen (path : Str)
  | missingRotation (rel : Str) (plan_path : Str)
deriving DecidableEq

/-- Photo and map transform caches (`Resized_Images`, `Map_Cache`). -/
structure Caches where
  resized : CacheState
  maps : CacheState
deriving DecidableEq

def planPath (cfg : BuildConfig) : Str :=
  joinPath cfg.output_folder ("rotation_plan.txt".data)

/-- The per-photo body of the build loop: resolve the rotation (fatal
if absent), populate the photo cache, match and cache the map, and
compute the page's placement rectangles. -/
def buildPhotoPage (w : BuildWorld) (cfg : BuildConfig) (rots : PlanMap)
    (caches : Caches) (src_path : Str) : Except BuildErr (Page × Caches) :=
  match planLookup rots (normalizeSlashes src_path) with
  | none => .error (.missingRotation (normalizeSlashes src_path) (planPath cfg))
  | some deg =>
    match process_photo_to_cache w.srcImgs caches.resized src_path
        (joinPath cfg.output_folder ("Resized_Images".data)) deg with
    | .error p => .error (.imageOpen p)
    | .ok (pres, resized2) =>
      match find_corresponding_gps_image src_path cfg.gps_image_folder
          cfg.gps_match with
      | none =>
        .ok (.photoPage none
          (placeContent margin_x (margin_y + map_area_h + gutter_y)
            usable_w photo_area_h pres.2.1 pres.2.2),
          ⟨resized2, caches.maps⟩)
      | some gp =>
        match process_map_to_cache w.mapImgs caches.maps gp
            (joinPath cfg.output_folder ("Map_Cache".data)) 270 with
        | .error p => .error (.imageOpen p)
        | .ok (mres, maps2) =>
          .ok (.photoPage
            (some (placeContent margin_x margin_y usable_w map_area_h
              mres.2.1 mres.2.2))
            (placeContent margin_x (margin_y + map_area_h + gutter_y)
              usable_w photo_area_h pres.2.1 pres.2.2),
            ⟨resized2, maps2⟩)

/-- The inner `for src_path in images_sorted` loop. -/
def buildPhotos (w : BuildWorld) (cfg : BuildConfig) (rots : PlanMap) :
    List Str → Caches → Except BuildErr (List Page × Caches)
  | [], caches => .ok ([], caches)
  | p :: ps, caches =>
    match buildPhotoPage w cfg rots caches p with
    | .error e => .error e
    | .ok (pg, caches2) =>
      match buildPhotos w cfg rots ps caches2 with
      | .error e => .error e
      | .ok (pgs, caches3) => .ok (pg :: pgs, caches3)

/-- The sorted full paths of one chapter's photos, as the build pass
derives them. -/
def folderPhotoPaths (f : InputFolder) : List Str :=
  (P02.sortedImages f.folder).map (fun e => joinPath f.folder.path e.name)

/-- The outer `for folder_path, heading, thumb_rel in
config["input_folders"]` loop: divider page, then photo pages. -/
def buildFolders (w : BuildWorld) (cfg : BuildConfig) (rots : PlanMap) :
    List InputFolder → Caches → Except BuildErr (List Page × Caches)
  | [], caches => .ok ([], caches)
  | f :: fs, caches =>
    match buildPhotos w cfg rots (folderPhotoPaths f) caches with
    | .error e => .error e
    | .ok (pgs, caches2) =>
      match buildFolders w cfg rots fs caches2 with
      | .error e => .error e
      | .ok (pgs2, caches3) =>
        .ok (.chapterPage f.heading (f.thumbRel.map (joinPath f.folder.path))
          :: pgs ++ pgs2, caches3)

/-- src/02_pdf.py `main`: check the plan file exists, decode it, check
the layout, build every chapter, and only then write the document. -/
def buildMain (w : BuildWorld) (cfg : BuildConfig) :
    Except BuildErr (List Page) :=
  if ¬ w.planExists then .error (.planNotFound (planPath cfg))
  else
    match parse_rotation_plan w.planLines with
    | .error e => .error (.planParse e)
    | .ok rots =>
      if photo_area_h ≤ 50 then .error .layoutTooTight
      else
        match buildFolders w cfg rots cfg.input_folders ⟨[], []⟩ with
        | .error e => .error e
        | .ok (pages, _) => .ok pages

/-- All photos of a build, in page order. -/
def allPhotoPaths (cfg : BuildConfig) : List Str :=
  (cfg.input_folders.map folderPhotoPaths).flatten

theorem process_photo_ok (srcDims : ImageStore) (cache : CacheState)
    (src folder : Str) (deg : Int) (h : srcDims src ≠ none) :
    ∃ r c2, process_photo_to_cache srcDims cache src folder deg = .ok (r, c2) := by
  cases hc : cacheLookup cache (photoCachePath folder src deg) with
  | some wh =>
    exact ⟨(photoCachePath folder src deg, wh.1, wh.2), cache,
      by simp only [process_photo_to_cache, hc]⟩
  | none =>
    cases hs : srcDims src with
    | none => exact absurd hs h
    | some wh0 =>
      exact ⟨(photoCachePath folder src deg,
        (pilThumbnail (appliedRotation deg wh0) (photoMaxW, photoMaxH)).1,
        (pilThumbnail (appliedRotation deg wh0) (photoMaxW, photoMaxH)).2),
        cacheInsert cache (photoCachePath folder src deg)
          (pilThumbnail (appliedRotation deg wh0) (photoMaxW, photoMaxH)),
        by simp only [process_photo_to_cache, hc, hs]⟩

theorem process_map_ok (mapDims : ImageStore) (cache : CacheState)
    (mp folder : Str) (deg : Int) (h : mapDims mp ≠ none) :
    ∃ r c2, process_map_to_cache mapDims cache mp folder deg = .ok (r, c2) := by
  cases hc : cacheLookup cache (mapCachePath folder mp deg) with
  | some wh =>
    exact ⟨(mapCachePath folder mp deg, wh.1, wh.2), cache,
      by simp only [process_map_to_cache, hc]⟩
  | none =>
    cases hs : mapDims mp with
    | none => exact absurd hs h
    | some wh0 =>
      exact ⟨(mapCachePath folder mp deg,
        (pilThumbnail (appliedRotation deg wh0) (mapMaxW, mapMaxH)).1,
        (pilThumbnail (appliedRotation deg wh0) (mapMaxW, mapMaxH)).2),
        cacheInsert cache (mapCachePath folder mp deg)
          (pilThumbnail (appliedRotation deg wh0) (mapMaxW, mapMaxH)),
        by simp only [process_map_to_cache, hc, hs]⟩

theorem buildPhotoPage_ok (w : BuildWorld) (cfg : BuildConfig)
    (rots : PlanMap) (caches : Caches) (p : Str)
    (hrot : planLookup rots (normalizeSlashes p) ≠ none)
    (hsrc : ∀ q, w.srcImgs q ≠ none) (hmap : ∀ q, w.mapImgs q ≠ none) :
    ∃ pg caches2, buildPhotoPage w cfg rots caches p = .ok (pg, caches2) := by
  cases hl : planLookup rots (normalizeSlashes p) with
  | none => exact absurd hl hrot
  | some deg =>
    obtain ⟨r, c2, hpr⟩ := process_photo_ok w.srcImgs caches.resized p
      (joinPath cfg.output_folder ("Resized_Images".data)) deg (hsrc p)
    cases hg : find_corresponding_gps_image p cfg.gps_image_folder
        cfg.gps_match with
    | none =>
      exact ⟨.photoPage none
        (placeContent margin_x (margin_y + map_area_h + gutter_y)
          usable_w photo_area_h r.2.1 r.2.2), ⟨c2, caches.maps⟩,
        by simp only [buildPhotoPage, hl, hpr, hg]⟩
    | some gp =>
      obtain ⟨mr, c3, hmr⟩ := process_map_ok w.mapImgs caches.maps gp
        (joinPath cfg.output_folder ("Map_Cache".data)) 270 (hmap gp)
      exact ⟨.photoPage
        (some (placeContent margin_x margin_y usable_w map_area_h
          mr.2.1 mr.2.2))
        (placeContent margin_x (margin_y + map_area_h + gutter_y)
          usable_w photo_area_h r.2.1 r.2.2), ⟨c2, c3⟩,
        by simp only [buildPhotoPage, hl, hpr, hg, hmr]⟩

/-- The inner photo loop dies with the missing-rotation error of the
first photo whose normalized path has no plan entry. -/
theorem buildPhotos_err (w : BuildWorld) (cfg : BuildConfig)
    (rots : PlanMap) (photos : List Str) (p0 : Str)
    (hsrc : ∀ q, w.srcImgs q ≠ none) (hmap : ∀ q, w.mapImgs q ≠ none)
    (hfind : photos.find?
      (fun p => (planLookup rots (normalizeSlashes p)).isNone) = some p0) :
    ∀ caches, buildPhotos w cfg rots photos caches =
      .error (.missingRotation (normalizeSlashes p0) (planPath cfg)) := by
  induction photos with
  | nil => cases hfind
  | cons p ps ih =>
    intro caches
    rw [List.find?_cons] at hfind
    cases hp : (planLookup rots (normalizeSlashes p)).isNone with
    | true =>
      simp only [hp] at hfind
      injection hfind with hfind
      subst hfind
      have hl : planLookup rots (normalizeSlashes p) = none :=
        Option.isNone_iff_eq_none.mp hp
      simp only [buildPhotos, buildPhotoPage, hl]
    | false =>
      simp only [hp] at hfind
      obtain ⟨pg, c2, hok⟩ := buildPhotoPage_ok w cfg rots caches p
        (fun he => by rw [he] at hp; exact absurd hp (by decide)) hsrc hmap
      simp only [buildPhotos, hok]
      rw [ih hfind c2]

/-- The inner photo loop succeeds when every photo has a plan entry. -/
theorem buildPhotos_ok (w : BuildWorld) (cfg : BuildConfig)
    (rots : PlanMap) (photos : List Str)
    (hsrc : ∀ q, w.srcImgs q ≠ none) (hmap : ∀ q, w.mapImgs q ≠ none)
    (hall : ∀ p ∈ photos, planLookup rots (normalizeSlashes p) ≠ none) :
    ∀ caches, ∃ pgs caches2,
      buildPhotos w cfg rots photos caches = .ok (pgs, caches2) := by
  induction photos with
  | nil => exact fun caches => ⟨[], caches, rfl⟩
  | cons p ps ih =>
    intro caches
    obtain ⟨pg, c2, hok⟩ := buildPhotoPage_ok w cfg rots caches p
      (hall p (List.mem_cons_self _ _)) hsrc hmap
    obtain ⟨pgs, c3, hoks⟩ :=
      ih (fun q hq => hall q (List.mem_cons_of_mem _ hq)) c2
    exact ⟨pg :: pgs, c3, by simp only [buildPhotos, hok, hoks]⟩

/-- The chapter loop dies with the missing-rotation error of the first
missing photo across the whole build. -/
theorem buildFolders_err (w : BuildWorld) (cfg : BuildConfig)
    (rots : PlanMap) (fs : List InputFolder) (p0 : Str)
    (hsrc : ∀ q, w.srcImgs q ≠ none) (hmap : ∀ q, w.mapImgs q ≠ none)
    (hfind : ((fs.map folderPhotoPaths).flatten).find?
      (fun p => (planLookup rots (normalizeSlashes p)).isNone) = some p0) :
    ∀ caches, buildFolders w cfg rots fs caches =
      .error (.missingRotation (normalizeSlashes p0) (planPath cfg)) := by
  induction fs with
  | nil => cases hfind
  | cons f fs ih =>
    intro caches
    rw [List.map_cons, List.flatten_cons, List.find?_append] at hfind
    cases hf : (folderPhotoPaths f).find?
        (fun p => (planLookup rots (normalizeSlashes p)).isNone) with
    | some q =>
      rw [hf] at hfind
      simp only [Option.or] at hfind
      injection hfind with hfind
      subst hfind
      simp only [buildFolders,
        buildPhotos_err w cfg rots (folderPhotoPaths f) q hsrc hmap hf caches]
    | none =>
      rw [hf] at hfind
      simp only [Option.or] at hfind
      obtain ⟨pgs, c2, hok⟩ := buildPhotos_ok w cfg rots (folderPhotoPaths f)
        hsrc hmap (by
          intro p hp he
          have := List.find?_eq_none.mp hf p hp
          rw [he] at this
          exact this rfl) caches
      simp only [buildFolders, hok]
      rw [ih hfind c2]

/-- C2. Missing rotation entry aborts atomically: a missing
rotation_plan.txt is a fatal `planNotFound` error naming the expected
plan path before any page is built; and in a build whose photo
sequence contains a photo with no plan entry (sources readable), the
build raises the missing-rotation error naming that photo's normalized
path and the plan file.  In both cases `buildMain` returns `.error`,
so `pdf.output` never runs and no Photobook.pdf is produced. -/
theorem missing_rotation_aborts :
    (∀ (w : BuildWorld) (cfg : BuildConfig),
      w.planExists = false →
      buildMain w cfg = .error (.planNotFound (planPath cfg))) ∧
    (∀ (w : BuildWorld) (cfg : BuildConfig) (rots : PlanMap) (p0 : Str),
      w.planExists = true →
      parse_rotation_plan w.planLines = .ok rots →
      (∀ q, w.srcImgs q ≠ none) →
      (∀ q, w.mapImgs q ≠ none) →
      (allPhotoPaths cfg).find?
        (fun p => (planLookup rots (normalizeSlashes p)).isNone) = some p0 →
      buildMain w cfg =
        .error (.missingRotation (normalizeSlashes p0) (planPath cfg))) := by
  constructor
  · intro w cfg h
    simp only [buildMain, h]
    rw [if_pos (by decide)]
  · intro w cfg rots p0 hex hparse hsrc hmap hfind
    simp only [allPhotoPaths] at hfind
    simp only [buildMain, hex, hparse]
    rw [if_neg (by decide)]
    rw [if_neg (by norm_num [photo_area_h, usable_h, page_h, margin_y,
      map_area_h, map_max_h, gutter_y])]
    simp only [buildFolders_err w cfg rots cfg.input_folders p0 hsrc hmap
      hfind ⟨[], []⟩]

/-- Witness for C2: a one-chapter, one-photo build against an empty
(but existing) plan aborts naming that photo; the same build with the
plan file absent aborts naming the plan path. -/
theorem missing_rotation_aborts_witness :
    buildMain
      ⟨false, [], fun _ => some (5, 5), fun _ => some (5, 5)⟩
      ⟨"out".data,
        [⟨⟨"ch1".data, [⟨"b.jpg".data, true, none, none⟩]⟩, "Alps".data, none⟩],
        none, "stem_contains".data⟩ =
      .error (.planNotFound (planPath
        ⟨"out".data,
          [⟨⟨"ch1".data, [⟨"b.jpg".data, true, none, none⟩]⟩, "Alps".data, none⟩],
          none, "stem_contains".data⟩)) ∧
    buildMain
      ⟨true, [], fun _ => some (5, 5), fun _ => some (5, 5)⟩
      ⟨"out".data,
        [⟨⟨"ch1".data, [⟨"b.jpg".data, true, none, none⟩]⟩, "Alps".data, none⟩],
        none, "stem_contains".data⟩ =
      .error (.missingRotation (normalizeSlashes ("ch1/b.jpg".data)) (planPath
        ⟨"out".data,
          [⟨⟨"ch1".data, [⟨"b.jpg".data, true, none, none⟩]⟩, "Alps".data, none⟩],
          none, "stem_contains".data⟩)) :=
  ⟨missing_rotation_aborts.1 _ _ rfl,
   missing_rotation_aborts.2 _ _ [] ("ch1/b.jpg".data) rfl (by decide)
     (fun q h => Option.noConfusion h) (fun q h => Option.noConfusion h)
     (by decide)⟩

end Photobook
